import Mathlib

/-!
# SampleAllocator: a buddy-block allocator (`Allocator.c`)

Shallow embedding of `Allocator.c` and theorems about it.

Modelling conventions (LP64, as the source comment "FreeNode is 24 on 64 bit
machine" fixes):

* `size_t` values are naturals reduced modulo `2 ^ 64` where the source can
  wrap; `(int)` casts of a `size_t` keep the low 32 bits, read as two's
  complement.
* Addresses are naturals, `NULL` is `0`.
* Memory is a total store.  The free-list registry that follows `NumOrders` is
  read by list index, block memory is read as `FreeNode` records by address.
  Memory the program never wrote holds whatever the initial store holds.
  A store through a link changes the record at the address the link holds and
  nothing else: this record store (`Heap`) follows the program as long as every
  link that is followed is `NULL` or the address of a node.
* Where a store goes through a link that is not the address of a node, the
  program is read at byte level (`Bytes.Store`): one memory of bytes holds
  `NumOrders`, the registry and the blocks, pointers are 8 bytes and the bitfields
  sit in a 4-byte `unsigned int`, little-endian, the first field in the lowest
  bits (the x86-64 layout: `next` at offset 8, `prev` at offset 16).  Addresses
  are naturals there too, without wrap at `2 ^ 64`.
* `log(x) / log(2)` is read in exact arithmetic (`floorLog2` is the floor of the
  base-two logarithm); floating-point rounding is not modelled.
* The 7-bit bitfields `order`, `maxOrder`, `orders` are reduced modulo `128`
  where the source stores a wider value into them.
* The `int` shifts `1 << flipMe` and `LOW_ORDER << maxOrder` are taken exactly;
  this is the value C gives while the result fits an `int`, that is for orders
  up to 25.
* A call of the public interface maps a state to a result and a state; the two
  `exit` calls are the `error` results of `Except`.
-/

namespace SampleAllocator

set_option maxRecDepth 16000

/-! ## Constants and records -/

/-- Smallest block size: `#define LOW_ORDER 32`. -/
def LOW_ORDER : Nat := 32

/-- Freedom flag `#define FREE 1`. -/
def FREE : Nat := 1

/-- Freedom flag `#define USED 0`. -/
def USED : Nat := 0

/-- The null pointer. -/
def NULL : Nat := 0

/-- Range of `size_t`. -/
def SIZE_RANGE : Nat := 2 ^ 64

/-- Value of `sizeof(Header)`: three bitfields inside one `unsigned int`. -/
def sizeofHeader : Nat := 4

/-- Value of `sizeof(NumOrders)`: one bitfield inside one `unsigned int`. -/
def sizeofNumOrders : Nat := 4

/-- Value of `sizeof(FreeList)`: two pointers. -/
def sizeofFreeList : Nat := 16

/-- Value of `sizeof(FreeNode)`: header, padding and two pointers. -/
def sizeofFreeNode : Nat := 24

/-- Range of a 7-bit bitfield. -/
def FIELD7 : Nat := 128

/-- Block header `Header`. -/
structure Header where
  freedom : Nat
  maxOrder : Nat
  order : Nat
deriving DecidableEq, Repr

/-- Free block `FreeNode`: header and the two sibling links. -/
structure FreeNode where
  head : Header
  next : Nat
  prev : Nat
deriving DecidableEq, Repr

/-- Registry entry `FreeList`; `end_` is the field `end` of the source. -/
structure FreeList where
  start : Nat
  end_ : Nat
deriving DecidableEq, Repr

/-- The two fatal exits of the program: `exit(2)` and `exit(3)`. -/
inductive AllocError where
  | InsufficientSpace
  | DoubleFree
deriving DecidableEq, Repr

/-- Exit status of the process for each fatal exit. -/
def AllocError.exitCode : AllocError → Nat
  | .InsufficientSpace => 2
  | .DoubleFree => 3

/-- Program state: the global `heapStart`, the `NumOrders` record stored there,
the registry that follows it (by list index) and block memory (by address). -/
structure Heap where
  heapStart : Nat
  orders : Nat
  lists : Nat → FreeList
  nodes : Nat → FreeNode

/-- A store in which every byte is zero. -/
def zeroHeap : Heap :=
  { heapStart := 0, orders := 0, lists := fun _ => ⟨0, 0⟩, nodes := fun _ => ⟨⟨0, 0, 0⟩, 0, 0⟩ }

/-! ## Store updates -/

/-- Assignment `getListWithOrder(i)->start = v`. -/
def Heap.setStart (h : Heap) (i v : Nat) : Heap :=
  { h with lists := fun j => if j = i then { h.lists i with start := v } else h.lists j }

/-- Assignment `getListWithOrder(i)->end = v`. -/
def Heap.setEnd (h : Heap) (i v : Nat) : Heap :=
  { h with lists := fun j => if j = i then { h.lists i with end_ := v } else h.lists j }

/-- Assignment `a->next = v`. -/
def Heap.setNext (h : Heap) (a v : Nat) : Heap :=
  { h with nodes := fun b => if b = a then { h.nodes a with next := v } else h.nodes b }

/-- Assignment `a->prev = v`. -/
def Heap.setPrev (h : Heap) (a v : Nat) : Heap :=
  { h with nodes := fun b => if b = a then { h.nodes a with prev := v } else h.nodes b }

/-- Assignment `a->head.freedom = v`. -/
def Heap.setFreedom (h : Heap) (a v : Nat) : Heap :=
  { h with nodes := fun b =>
      if b = a then { h.nodes a with head := { (h.nodes a).head with freedom := v } }
      else h.nodes b }

/-- Assignment `a->head.order = v` (7-bit field). -/
def Heap.setOrder (h : Heap) (a v : Nat) : Heap :=
  { h with nodes := fun b =>
      if b = a then { h.nodes a with head := { (h.nodes a).head with order := v % FIELD7 } }
      else h.nodes b }

/-- Assignment `a->head.maxOrder = v` (7-bit field). -/
def Heap.setMaxOrder (h : Heap) (a v : Nat) : Heap :=
  { h with nodes := fun b =>
      if b = a then { h.nodes a with head := { (h.nodes a).head with maxOrder := v % FIELD7 } }
      else h.nodes b }

/-! ## Order calculator -/

/-- Floor of the base-two logarithm by repeated halving (`0` at `0` and `1`);
`fuel` bounds the number of halvings. -/
def floorLog2Aux : Nat → Nat → Nat
  | 0, _ => 0
  | fuel + 1, n => if 2 ≤ n then floorLog2Aux fuel (n / 2) + 1 else 0

/-- Floor of the base-two logarithm: the value of `(unsigned int)(log(n) / log(2))`
in exact arithmetic for `n ≥ 1`.  It agrees with `Nat.log2` (`floorLog2_eq_log2`). -/
def floorLog2 (n : Nat) : Nat := floorLog2Aux n n

/-- Value of `ceil(log((double)reqBytes / LOW_ORDER) / log(2))` in exact
arithmetic: for `reqBytes ≥ LOW_ORDER` the ceiling of the base-two logarithm of
the quotient, below that the (non-positive) negated floor of the logarithm of the
inverse quotient.  `reqBytes = 0` (where `log` is `-inf`) is given `0`; the caller
clamps every non-positive value to `0`. -/
def ceilLogQuot (reqBytes : Nat) : Int :=
  if LOW_ORDER ≤ reqBytes then
    let m := (reqBytes + (LOW_ORDER - 1)) / LOW_ORDER
    if m ≤ 1 then 0 else ((floorLog2 (m - 1) + 1 : Nat) : Int)
  else
    - ((floorLog2 (LOW_ORDER / reqBytes) : Nat) : Int)

/-- Source `calcRequiredOrder`: `reqBytes += sizeof(Header)` in `size_t`, then the
ceiling logarithm, clamped at `0`. -/
def calcRequiredOrder (reqBytes : Nat) : Nat :=
  let reqBytes := (reqBytes + sizeofHeader) % SIZE_RANGE
  let order : Int := ceilLogQuot reqBytes
  if order ≥ 0 then order.toNat else 0

/-! ## Free list registry -/

/-- Source `removeFreeBlock`. -/
def removeFreeBlock (h : Heap) (node : Nat) : Heap :=
  let lst := (h.nodes node).head.order
  let h1 := if (h.lists lst).start = node then h.setStart lst (h.nodes node).next else h
  let h2 := if (h1.lists lst).end_ = node then h1.setEnd lst (h1.nodes node).prev else h1
  let h3 :=
    if (h2.nodes node).prev ≠ NULL then
      (h2.setNext (h2.nodes node).prev (h2.nodes node).next).setPrev node NULL
    else h2
  if (h3.nodes node).next ≠ NULL then
    (h3.setPrev (h3.nodes node).next (h3.nodes node).prev).setNext node NULL
  else h3

/-- Source `addFreeBlock`. -/
def addFreeBlock (h : Heap) (node : Nat) : Heap :=
  let lst := (h.nodes node).head.order
  let h1 := if (h.lists lst).start = NULL then h.setStart lst node else h
  if (h1.lists lst).end_ = NULL then h1.setEnd lst node
  else
    let h2 := h1.setNext (h1.lists lst).end_ node
    let h3 := h2.setPrev node (h2.lists lst).end_
    let h4 := h3.setNext node NULL
    h4.setEnd lst node

/-! ## Buddy locator and block splitter -/

/-- Source `getBuddy`; `NULL` when the block is at its `maxOrder`.  `offset` is
the header's own address, as in the source, and `log(LOW_ORDER) / log(2)` is `5`. -/
def getBuddy (h : Heap) (head : Nat) : Nat :=
  if (h.nodes head).head.maxOrder = (h.nodes head).head.order then NULL
  else
    let offset := head
    let flipMe := (h.nodes head).head.order + floorLog2 LOW_ORDER
    let buddyLoc := (head - offset) ^^^ (1 <<< flipMe)
    offset + buddyLoc

/-- Source `splitBlock`. -/
def splitBlock (h : Heap) (node : Nat) : Heap :=
  if (h.nodes node).head.order = 0 then h
  else
    let h1 := removeFreeBlock h node
    let h2 := h1.setOrder node ((h1.nodes node).head.order - 1)
    let buddy := getBuddy h2 node
    let h3 := h2.setFreedom buddy FREE
    let h4 := h3.setOrder buddy (h3.nodes node).head.order
    let h5 := h4.setMaxOrder buddy (h4.nodes node).head.maxOrder
    let h6 := addFreeBlock h5 buddy
    addFreeBlock h6 node

/-! ## Allocation engine -/

/-- Inner loop of `getFreeBlockWithOrder`: `splitBlock(free)` called `n` times. -/
def splitTimes : Nat → Heap → Nat → Heap
  | 0, h, _ => h
  | n + 1, h, free => splitTimes n (splitBlock h free) free

/-- Outer loop of `getFreeBlockWithOrder` from index `i`, with `cnt` indices left
below `numOrders`: the first index whose list has a head stops the scan, and the
head is split `i - order` times. -/
def scanOrders (order : Nat) : Nat → Nat → Heap → Nat × Heap
  | 0, _, h => (NULL, h)
  | cnt + 1, i, h =>
    let free := (h.lists i).start
    if free ≠ NULL then (free, splitTimes (i - order) h free)
    else scanOrders order cnt (i + 1) h

/-- Source `getFreeBlockWithOrder`: the node found (or `NULL`) and the new state. -/
def getFreeBlockWithOrder (h : Heap) (order : Nat) : Nat × Heap :=
  let numOrders := h.orders
  scanOrders order (numOrders - order) order h

/-- Source `xMalloc`: the pointer returned (`NULL` when out of memory) and the
new state. -/
def xMalloc (h : Heap) (bytes : Nat) : Nat × Heap :=
  let order := calcRequiredOrder bytes
  let r := getFreeBlockWithOrder h order
  let node := r.1
  if node = NULL then (NULL, r.2)
  else
    let h1 := removeFreeBlock r.2 node
    let h2 := h1.setFreedom node USED
    (node + sizeofHeader, h2)

/-! ## Deallocation and coalescing -/

/-- Source `addAndConsolidate`, the recursion unrolled on `fuel`.  Every recursive
call has advanced the 7-bit `order` of the block by one and the recursion stops
when it meets `maxOrder`, so in the record store `FIELD7` calls always suffice
(`addAndConsolidate_fuel`). -/
def addAndConsolidate : Nat → Heap → Nat → Heap
  | 0, h, _ => h
  | fuel + 1, h, node =>
    let other := getBuddy h node
    if other ≠ NULL ∧ (h.nodes other).head.freedom = FREE then
      let h1 := removeFreeBlock h other
      let combo := if node < other then node else other
      let h2 := h1.setOrder combo ((h1.nodes combo).head.order + 1)
      addAndConsolidate fuel h2 combo
    else addFreeBlock h node

/-- Source `xFree`: `exit(3)` on a block already marked `FREE`. -/
def xFree (h : Heap) (pnt : Nat) : Except AllocError Heap :=
  let node := pnt - sizeofHeader
  if (h.nodes node).head.freedom = FREE then .error .DoubleFree
  else
    let h1 := h.setFreedom node FREE
    .ok (addAndConsolidate (FIELD7 + 1) h1 node)

/-! ## Heap layout manager -/

/-- The cast `(int)x` of a `size_t` value: low 32 bits, two's complement. -/
def toInt32 (x : Int) : Int :=
  let w := x % 2 ^ 32
  if w < 2 ^ 31 then w else w - 2 ^ 32

/-- Loop condition of the first loop of `setupHeap`:
`(int)(heapSize - orderSize - sizeof(NumOrders) - numOrders * sizeof(FreeList)) >= 0`. -/
def fitsOrder (heapSize orderSize numOrders : Nat) : Bool :=
  decide (toInt32 (((heapSize : Int) - orderSize - sizeofNumOrders
    - numOrders * sizeofFreeList) % SIZE_RANGE) ≥ 0)

/-- First loop of `setupHeap`: the value of `numOrders` when the loop exits. -/
def countOrders (heapSize : Nat) : Nat → Nat → Nat → Nat
  | 0, _, numOrders => numOrders
  | fuel + 1, orderSize, numOrders =>
    if fitsOrder heapSize orderSize numOrders then
      countOrders heapSize fuel ((orderSize <<< 1) % SIZE_RANGE) (numOrders + 1)
    else numOrders

/-- Second loop of `setupHeap`: lists `0 .. numOrders - 1` are emptied. -/
def initLists : Nat → Heap → Heap
  | 0, h => h
  | i + 1, h => ((initLists i h).setStart i NULL).setEnd i NULL

/-- Third loop of `setupHeap`: carve top-level chunks while `avaSpace >= LOW_ORDER`.
The position is advanced by the chunk size before the node is written, as in the
source. -/
def carveChunks : Nat → Nat → Nat → Heap → Heap
  | 0, _, _, h => h
  | fuel + 1, avaSpace, freespaceStartPosition, h =>
    if avaSpace ≥ LOW_ORDER then
      let maxOrder := floorLog2 (avaSpace / 32)
      let orderSize := LOW_ORDER <<< maxOrder
      let avaSpace := avaSpace - orderSize
      let freespaceStartPosition := freespaceStartPosition + orderSize
      let node := freespaceStartPosition
      let h1 := h.setFreedom node FREE
      let h2 := h1.setOrder node maxOrder
      let h3 := h2.setMaxOrder node maxOrder
      let h4 := h3.setNext node NULL
      let h5 := h4.setPrev node NULL
      carveChunks fuel avaSpace freespaceStartPosition (addFreeBlock h5 node)
    else h

/-- Value of the local `numOrders` of `setupHeap` after `numOrders -= 1`. -/
def setupNumOrders (heapSize : Nat) : Nat :=
  countOrders heapSize 64 LOW_ORDER 1 - 1

/-- Source `setupHeap`: `exit(2)` when not even one order fits. -/
def setupHeap (h : Heap) (start heapSize : Nat) : Except AllocError Heap :=
  let h0 := { h with heapStart := start }
  let numOrders := setupNumOrders heapSize
  let h1 := { h0 with orders := numOrders % FIELD7 }
  if numOrders ≤ 0 then .error .InsufficientSpace
  else
    let h2 := initLists numOrders h1
    let overhead := sizeofNumOrders + numOrders * sizeofFreeList
    let avaSpace := heapSize - overhead
    let freespaceStartPosition := h2.heapStart + overhead
    .ok (carveChunks avaSpace avaSpace freespaceStartPosition h2)

/-! ## The demonstration arena of `main` -/

/-- State after `setupHeap` on a zeroed store, or the zeroed store when setup exits. -/
def setupOn (start heapSize : Nat) : Heap :=
  match setupHeap zeroHeap start heapSize with
  | .ok h => h
  | .error _ => zeroHeap

/-- The arena of `main`: `512 * 1024` bytes, placed at address `1000000`. -/
def demoHeap : Heap := setupOn 1000000 524288

/-- The request size of `main`: `112 * 1024` bytes. -/
def demoBytes : Nat := 112 * 1024

/-- State and result after the first `xMalloc(bytes)` of `main`. -/
def demo1 : Nat × Heap := xMalloc demoHeap demoBytes

/-- State and result after the second `xMalloc(bytes)` of `main`. -/
def demo2 : Nat × Heap := xMalloc demo1.2 demoBytes

/-- State and result after the third `xMalloc(bytes)` of `main`. -/
def demo3 : Nat × Heap := xMalloc demo2.2 demoBytes

/-- State and result after the fourth `xMalloc(bytes)` of `main`. -/
def demo4 : Nat × Heap := xMalloc demo3.2 demoBytes

/-- Byte range test: the blocks of `size` bytes at `a` and at `b` share a byte. -/
def overlaps (a b size : Nat) : Prop := a < b + size ∧ b < a + size

instance (a b size : Nat) : Decidable (overlaps a b size) := by
  unfold overlaps; infer_instance

/-- The state of a call that returned, or `d` when the call exited. -/
def stateOr (d : Heap) : Except AllocError Heap → Heap
  | .ok h => h
  | .error _ => d

/-- An arena of 124 bytes at address `1000000`: room for two lists and one chunk
of order 1. -/
def smallHeap : Heap := setupOn 1000000 124

/-- First `xMalloc(20)` on `smallHeap`. -/
def small1 : Nat × Heap := xMalloc smallHeap 20

/-- Second `xMalloc(20)` on `smallHeap`. -/
def small2 : Nat × Heap := xMalloc small1.2 20

/-- State after freeing the first pointer of `smallHeap`. -/
def small3 : Heap := stateOr zeroHeap (xFree small2.2 small1.1)

/-- State after freeing the second pointer of `smallHeap`. -/
def small4 : Heap := stateOr zeroHeap (xFree small3 small2.1)

/-- An arena of 76 bytes at address `1000000`: room for one list and one chunk of
order 0, whose node lies inside the arena. -/
def tinyHeap : Heap := setupOn 1000000 76

/-- Value of `orderSize` in the sizing loop of `setupHeap` after `j` rounds. -/
def shiftedSize (j : Nat) (orderSize : Nat) : Nat :=
  Nat.iterate (fun o => (o <<< 1) % SIZE_RANGE) j orderSize

/-- Third call of the reuse run: `xMalloc(60000)` (order 11) after `demo2`. -/
def reuse3 : Nat × Heap := xMalloc demo2.2 60000

/-- Fourth call of the reuse run: `xMalloc(60000)`. -/
def reuse4 : Nat × Heap := xMalloc reuse3.2 60000

/-- Fifth call of the reuse run: `xMalloc(60000)`. -/
def reuse5 : Nat × Heap := xMalloc reuse4.2 60000

/-- Sixth call of the reuse run: `xFree` of the first pointer of `main`. -/
def reuse6 : Heap := stateOr zeroHeap (xFree reuse5.2 demo1.1)

/-- First call of the mismatch run: `xMalloc(30000)` (order 10) on `demoHeap`. -/
def mis1 : Nat × Heap := xMalloc demoHeap 30000

/-- Second call of the mismatch run: `xMalloc(30000)`. -/
def mis2 : Nat × Heap := xMalloc mis1.2 30000

/-- Third call of the mismatch run: `xMalloc(30000)`. -/
def mis3 : Nat × Heap := xMalloc mis2.2 30000

/-- Fourth call of the mismatch run: `xFree` of the second pointer. -/
def mis4 : Heap := stateOr zeroHeap (xFree mis3.2 mis2.1)

/-- Fifth call of the mismatch run: `xMalloc(60000)` (order 11). -/
def mis5 : Nat × Heap := xMalloc mis4 60000

/-- Sixth call of the mismatch run: `xMalloc(30000)` (order 10). -/
def mis6 : Nat × Heap := xMalloc mis5.2 30000

/-- Sixth call of the split run, which shares its first five calls with the
mismatch run: `xMalloc(15000)` (order 9), which takes the chunk of order 9. -/
def splitRun6 : Nat × Heap := xMalloc mis5.2 15000

/-- The state right after the `splitBlock` that the seventh call of the split run,
`xMalloc(15000)` again, performs on the head `1458980` of list 10. -/
def misSplit : Heap := splitBlock splitRun6.2 1458980

/-! ## Lists, ranges and runs for the registry claims -/

/-- Byte range test: the `sa` bytes at `a` and the `sb` bytes at `b` share a byte. -/
def rangesOverlap (a sa b sb : Nat) : Prop := a < b + sb ∧ b < a + sa

instance (a sa b sb : Nat) : Decidable (rangesOverlap a sa b sb) := by
  unfold rangesOverlap; infer_instance

/-- Following `next` from `s` visits exactly the nodes of `l`, in order, and then
reaches `NULL`. -/
def Chain (h : Heap) : Nat → List Nat → Prop
  | s, [] => s = NULL
  | s, a :: l => s = a ∧ a ≠ NULL ∧ Chain h (h.nodes a).next l

instance decChain (h : Heap) : (s : Nat) → (l : List Nat) → Decidable (Chain h s l)
  | s, [] => inferInstanceAs (Decidable (s = NULL))
  | s, a :: l =>
    have := decChain h (h.nodes a).next l
    inferInstanceAs (Decidable (s = a ∧ a ≠ NULL ∧ Chain h (h.nodes a).next l))

/-- Following `next` from `s` visits exactly the nodes of `l` and then reaches
`NULL`, and the `prev` field of each node is its predecessor, `p` for the first. -/
def Linked (h : Heap) : Nat → Nat → List Nat → Prop
  | _, s, [] => s = NULL
  | p, s, a :: l => s = a ∧ a ≠ NULL ∧ (h.nodes a).prev = p ∧ Linked h a (h.nodes a).next l

instance decLinked (h : Heap) : (p s : Nat) → (l : List Nat) → Decidable (Linked h p s l)
  | _, s, [] => inferInstanceAs (Decidable (s = NULL))
  | p, s, a :: l =>
    have := decLinked h a (h.nodes a).next l
    inferInstanceAs (Decidable (s = a ∧ a ≠ NULL ∧ (h.nodes a).prev = p ∧
      Linked h a (h.nodes a).next l))

/-- The list of order `j` is a well-formed doubly-linked list holding the nodes
`l`: `start` is the first node, `end` the last (both `NULL` when `l` is empty),
every `next` and `prev` link agrees with the order of `l`, and no node occurs
twice. -/
def WellFormed (h : Heap) (j : Nat) (l : List Nat) : Prop :=
  Linked h NULL (h.lists j).start l ∧ (h.lists j).end_ = l.getLastD NULL ∧ l.Nodup

instance (h : Heap) (j : Nat) (l : List Nat) : Decidable (WellFormed h j l) := by
  unfold WellFormed; infer_instance

/-- The state right after `splitBlock` on the order-13 chunk of the arena of
`main`, the first pointer being handed out. -/
def demoSplit : Heap := splitBlock demo1.2 1262372

/-- An arena of 96 bytes at address `1000000`: one list, and 76 bytes left for
blocks. -/
def oddHeap : Heap := setupOn 1000000 96

/-- A zeroed store with three nodes marked `FREE`, of order 0, appended to list 0
in the order `1000`, `2000`, `3000`. -/
def threeList : Heap :=
  addFreeBlock (addFreeBlock (addFreeBlock
    (((zeroHeap.setFreedom 1000 FREE).setFreedom 2000 FREE).setFreedom 3000 FREE)
    1000) 2000) 3000

/-- A zeroed store with one node marked `FREE`, of order 0, in no list, whose
`next` and `prev` fields hold the stale values `777` and `555`. -/
def staleNode : Heap :=
  ((zeroHeap.setFreedom 1000 FREE).setNext 1000 777).setPrev 1000 555

/-- First call of the coalescing run: `xMalloc(60000)` (order 11) on `demoHeap`. -/
def co1 : Nat × Heap := xMalloc demoHeap 60000

/-- Second call of the coalescing run: `xMalloc(112 * 1024)` (order 12). -/
def co2 : Nat × Heap := xMalloc co1.2 demoBytes

/-- Third call of the coalescing run: `xMalloc(60000)`. -/
def co3 : Nat × Heap := xMalloc co2.2 60000

/-- Fourth call of the coalescing run: `xMalloc(112 * 1024)`. -/
def co4 : Nat × Heap := xMalloc co3.2 demoBytes

/-- Fifth call of the coalescing run: `xMalloc(60000)`. -/
def co5 : Nat × Heap := xMalloc co4.2 60000

/-- Sixth call of the coalescing run: `xFree` of the third pointer. -/
def co6 : Heap := stateOr zeroHeap (xFree co5.2 co3.1)

/-- Seventh call of the coalescing run: `xFree` of the fifth pointer. -/
def co7 : Heap := stateOr zeroHeap (xFree co6 co5.1)

/-! ## List segments and the parts of `removeFreeBlock` -/

/-- Following `next` from `s` visits exactly the nodes of `l`, in order, and then
arrives at `t`. -/
def Seg (h : Heap) : Nat → List Nat → Nat → Prop
  | s, [], t => s = t
  | s, a :: l, t => s = a ∧ a ≠ NULL ∧ Seg h (h.nodes a).next l t

/-- The registry part of `removeFreeBlock`: its two updates of `start` and `end`. -/
def unlinkRegistry (h : Heap) (node : Nat) : Heap :=
  let lst := (h.nodes node).head.order
  let h1 := if (h.lists lst).start = node then h.setStart lst (h.nodes node).next else h
  if (h1.lists lst).end_ = node then h1.setEnd lst (h1.nodes node).prev else h1

/-- The link part of `removeFreeBlock`: its two updates of the neighbours' links. -/
def unlinkNode (x : Heap) (node : Nat) : Heap :=
  let h3 :=
    if (x.nodes node).prev ≠ NULL then
      (x.setNext (x.nodes node).prev (x.nodes node).next).setPrev node NULL
    else x
  if (h3.nodes node).next ≠ NULL then
    (h3.setPrev (h3.nodes node).next (h3.nodes node).prev).setNext node NULL
  else h3

/-- A zeroed store with four nodes marked `FREE` with `maxOrder` 2: `1000`, `2000`
and `3000` of order 1, and `5000` of order 0, in no list yet. -/
def splitNodes : Heap :=
  let h1 := ((zeroHeap.setFreedom 1000 FREE).setOrder 1000 1).setMaxOrder 1000 2
  let h2 := ((h1.setFreedom 2000 FREE).setOrder 2000 1).setMaxOrder 2000 2
  let h3 := ((h2.setFreedom 3000 FREE).setOrder 3000 1).setMaxOrder 3000 2
  (h3.setFreedom 5000 FREE).setMaxOrder 5000 2

/-- The nodes of `splitNodes` appended to their lists: the list of order 1 holds
`1000`, `2000`, `3000` and the list of order 0 holds `5000`. -/
def splitList : Heap :=
  addFreeBlock (addFreeBlock (addFreeBlock (addFreeBlock splitNodes 1000) 2000) 3000) 5000

/-! ## The arena as bytes -/

namespace Bytes

/-- Program state at byte level: the global `heapStart` and memory, one byte per
address.  The registry and the blocks live in the same memory. -/
structure Store where
  heapStart : Nat
  byte : Nat → Nat

/-- A memory in which every byte is zero. -/
def zeroStore : Store := { heapStart := 0, byte := fun _ => 0 }

/-- Little-endian load of `n` bytes at address `a`. -/
def loadBytes : Nat → Store → Nat → Nat
  | 0, _, _ => 0
  | n + 1, m, a => m.byte a % 256 + 256 * loadBytes n m (a + 1)

/-- Little-endian store of the low `n` bytes of `v` at address `a`. -/
def storeBytes (n : Nat) (m : Store) (a v : Nat) : Store :=
  { m with byte := fun b => if a ≤ b ∧ b < a + n then (v / 256 ^ (b - a)) % 256 else m.byte b }

/-- Load of a pointer or `size_t`: 8 bytes. -/
def load64 (m : Store) (a : Nat) : Nat := loadBytes 8 m a

/-- Store of a pointer: 8 bytes. -/
def store64 (m : Store) (a v : Nat) : Store := storeBytes 8 m a v

/-- Load of the `unsigned int` that holds the bitfields of a `Header` or of
`NumOrders`: 4 bytes. -/
def load32 (m : Store) (a : Nat) : Nat := loadBytes 4 m a

/-- Store of the `unsigned int` that holds the bitfields: 4 bytes. -/
def store32 (m : Store) (a v : Nat) : Store := storeBytes 4 m a v

/-- Field `head.freedom` of the header at `a`: bit 0 of its `unsigned int`. -/
def freedom (m : Store) (a : Nat) : Nat := load32 m a % 2

/-- Field `head.maxOrder` of the header at `a`: bits 1 to 7. -/
def maxOrder (m : Store) (a : Nat) : Nat := load32 m a / 2 % FIELD7

/-- Field `head.order` of the header at `a`: bits 8 to 14. -/
def order (m : Store) (a : Nat) : Nat := load32 m a / 256 % FIELD7

/-- Assignment `a->head.freedom = v`: the other bits of the `unsigned int` stay. -/
def setFreedom (m : Store) (a v : Nat) : Store :=
  store32 m a (load32 m a - load32 m a % 2 + v % 2)

/-- Assignment `a->head.maxOrder = v` (7-bit field). -/
def setMaxOrder (m : Store) (a v : Nat) : Store :=
  store32 m a (load32 m a - load32 m a / 2 % FIELD7 * 2 + v % FIELD7 * 2)

/-- Assignment `a->head.order = v` (7-bit field). -/
def setOrder (m : Store) (a v : Nat) : Store :=
  store32 m a (load32 m a - load32 m a / 256 % FIELD7 * 256 + v % FIELD7 * 256)

/-- Offset of the field `next` in `FreeNode`. -/
def offNext : Nat := 8

/-- Offset of the field `prev` in `FreeNode`. -/
def offPrev : Nat := 16

/-- Offset of the field `end` in `FreeList`. -/
def offEnd : Nat := 8

/-- Source `getListWithOrder`: the address `getFreeListStart() + order`. -/
def getListWithOrder (m : Store) (order : Nat) : Nat :=
  m.heapStart + sizeofNumOrders + order * sizeofFreeList

/-- Source `removeFreeBlock`. -/
def removeFreeBlock (m : Store) (node : Nat) : Store :=
  let lst := getListWithOrder m (order m node)
  let m1 := if load64 m lst = node then store64 m lst (load64 m (node + offNext)) else m
  let m2 :=
    if load64 m1 (lst + offEnd) = node then store64 m1 (lst + offEnd) (load64 m1 (node + offPrev))
    else m1
  let m3 :=
    if load64 m2 (node + offPrev) ≠ NULL then
      store64 (store64 m2 (load64 m2 (node + offPrev) + offNext) (load64 m2 (node + offNext)))
        (node + offPrev) NULL
    else m2
  if load64 m3 (node + offNext) ≠ NULL then
    store64 (store64 m3 (load64 m3 (node + offNext) + offPrev) (load64 m3 (node + offPrev)))
      (node + offNext) NULL
  else m3

/-- Source `addFreeBlock`. -/
def addFreeBlock (m : Store) (node : Nat) : Store :=
  let lst := getListWithOrder m (order m node)
  let m1 := if load64 m lst = NULL then store64 m lst node else m
  if load64 m1 (lst + offEnd) = NULL then store64 m1 (lst + offEnd) node
  else
    let m2 := store64 m1 (load64 m1 (lst + offEnd) + offNext) node
    let m3 := store64 m2 (node + offPrev) (load64 m2 (lst + offEnd))
    let m4 := store64 m3 (node + offNext) NULL
    store64 m4 (lst + offEnd) node

/-- Source `getBuddy`. -/
def getBuddy (m : Store) (head : Nat) : Nat :=
  if maxOrder m head = order m head then NULL
  else
    let offset := head
    let flipMe := order m head + floorLog2 LOW_ORDER
    let buddyLoc := (head - offset) ^^^ (1 <<< flipMe)
    offset + buddyLoc

/-- Source `splitBlock`; `order--` wraps in its 7-bit field. -/
def splitBlock (m : Store) (node : Nat) : Store :=
  if order m node = 0 then m
  else
    let m1 := removeFreeBlock m node
    let m2 := setOrder m1 node (order m1 node + FIELD7 - 1)
    let buddy := getBuddy m2 node
    let m3 := setFreedom m2 buddy FREE
    let m4 := setOrder m3 buddy (order m3 node)
    let m5 := setMaxOrder m4 buddy (maxOrder m4 node)
    let m6 := addFreeBlock m5 buddy
    addFreeBlock m6 node

/-- Inner loop of `getFreeBlockWithOrder`: `splitBlock(free)` called `n` times. -/
def splitTimes : Nat → Store → Nat → Store
  | 0, m, _ => m
  | n + 1, m, free => splitTimes n (splitBlock m free) free

/-- Outer loop of `getFreeBlockWithOrder` from index `i`, with `cnt` indices left
below `numOrders`. -/
def scanOrders (order : Nat) : Nat → Nat → Store → Nat × Store
  | 0, _, m => (NULL, m)
  | cnt + 1, i, m =>
    let free := load64 m (getListWithOrder m i)
    if free ≠ NULL then (free, splitTimes (i - order) m free)
    else scanOrders order cnt (i + 1) m

/-- Source `getFreeBlockWithOrder`; `numOrders` is read once, from the 7-bit field
at `heapStart`. -/
def getFreeBlockWithOrder (m : Store) (order : Nat) : Nat × Store :=
  let numOrders := load32 m m.heapStart % FIELD7
  scanOrders order (numOrders - order) order m

/-- Source `xMalloc`. -/
def xMalloc (m : Store) (bytes : Nat) : Nat × Store :=
  let order := calcRequiredOrder bytes
  let r := getFreeBlockWithOrder m order
  let node := r.1
  if node = NULL then (NULL, r.2)
  else
    let m1 := removeFreeBlock r.2 node
    let m2 := setFreedom m1 node USED
    (node + sizeofHeader, m2)

/-- Source `addAndConsolidate`, the recursion unrolled on `fuel`; `none` when the
recursion has not ended within `fuel` calls. -/
def addAndConsolidate : Nat → Store → Nat → Option Store
  | 0, _, _ => none
  | fuel + 1, m, node =>
    let other := getBuddy m node
    if other ≠ NULL ∧ freedom m other = FREE then
      let m1 := removeFreeBlock m other
      let combo := if node < other then node else other
      let m2 := setOrder m1 combo (order m1 combo + 1)
      addAndConsolidate fuel m2 combo
    else some (addFreeBlock m node)

/-- Source `xFree`: `exit(3)` on a block already marked `FREE`; `none` when the
recursion of `addAndConsolidate` has not ended within `fuel` calls. -/
def xFree (fuel : Nat) (m : Store) (pnt : Nat) : Option (Except AllocError Store) :=
  let node := pnt - sizeofHeader
  if freedom m node = FREE then some (.error .DoubleFree)
  else
    let m1 := setFreedom m node FREE
    (addAndConsolidate fuel m1 node).map .ok

/-- Second loop of `setupHeap`: lists `0 .. numOrders - 1` are emptied. -/
def initLists : Nat → Store → Store
  | 0, m => m
  | i + 1, m =>
    store64 (store64 (initLists i m) (getListWithOrder m i) NULL)
      (getListWithOrder m i + offEnd) NULL

/-- Third loop of `setupHeap`; `none` when the loop has not ended within `fuel`
rounds. -/
def carveChunks : Nat → Nat → Nat → Store → Option Store
  | 0, avaSpace, _, m => if avaSpace ≥ LOW_ORDER then none else some m
  | fuel + 1, avaSpace, freespaceStartPosition, m =>
    if avaSpace ≥ LOW_ORDER then
      let maxOrder := floorLog2 (avaSpace / 32)
      let orderSize := LOW_ORDER <<< maxOrder
      let avaSpace := avaSpace - orderSize
      let freespaceStartPosition := freespaceStartPosition + orderSize
      let node := freespaceStartPosition
      let m1 := setFreedom m node FREE
      let m2 := setOrder m1 node maxOrder
      let m3 := setMaxOrder m2 node maxOrder
      let m4 := store64 m3 (node + offNext) NULL
      let m5 := store64 m4 (node + offPrev) NULL
      carveChunks fuel avaSpace freespaceStartPosition (addFreeBlock m5 node)
    else some m

/-- Source `setupHeap`: `exit(2)` when not even one order fits; `none` when the
carving loop has not ended within `fuel` rounds. -/
def setupHeap (fuel : Nat) (m : Store) (start heapSize : Nat) :
    Option (Except AllocError Store) :=
  let m0 := { m with heapStart := start }
  let numOrders := setupNumOrders heapSize
  let m1 := store32 m0 m0.heapStart
    (load32 m0 m0.heapStart - load32 m0 m0.heapStart % FIELD7 + numOrders % FIELD7)
  if numOrders ≤ 0 then some (.error .InsufficientSpace)
  else
    let m2 := initLists numOrders m1
    let overhead := sizeofNumOrders + numOrders * sizeofFreeList
    let avaSpace := heapSize - overhead
    let freespaceStartPosition := m2.heapStart + overhead
    (carveChunks fuel avaSpace freespaceStartPosition m2).map .ok

/-- The state of a call that returned, or `d` otherwise. -/
def returned (d : Store) : Option (Except AllocError Store) → Store
  | some (.ok m) => m
  | _ => d

/-- An arena that was not cleared: every byte is zero but for the 8 bytes at
`1327924`, which hold the value `1262364`. -/
def staleArena : Store := store64 zeroStore 1327924 1262364

/-- The arena of `main`, `512 * 1024` bytes at `1000000`, set up on `staleArena`. -/
def stale0 : Store := returned zeroStore (setupHeap 64 staleArena 1000000 524288)

/-- First call of the stale-link run: `xMalloc(60000)` (order 11). -/
def stale1 : Nat × Store := xMalloc stale0 60000

/-- Second call of the stale-link run: `xMalloc(112 * 1024)` (order 12). -/
def stale2 : Nat × Store := xMalloc stale1.2 demoBytes

/-- Third call of the stale-link run: `xMalloc(60000)`. -/
def stale3 : Nat × Store := xMalloc stale2.2 60000

/-- Fourth call of the stale-link run: `xFree` of the third pointer. -/
def stale4 : Store := returned zeroStore (xFree (FIELD7 + 1) stale3.2 stale3.1)

/-- Fifth call of the stale-link run: `xFree` of the third pointer again. -/
def stale5 : Store := returned zeroStore (xFree (FIELD7 + 1) stale4 stale3.1)

/-- The arena of `main` set up on a zeroed memory. -/
def clean0 : Store := returned zeroStore (setupHeap 64 zeroStore 1000000 524288)

/-- First call of the caller-store run: `xMalloc(60000)`. -/
def clean1 : Nat × Store := xMalloc clean0 60000

/-- Second call of the caller-store run: `xMalloc(112 * 1024)`. -/
def clean2 : Nat × Store := xMalloc clean1.2 demoBytes

/-- Third call of the caller-store run: `xMalloc(60000)`. -/
def clean3 : Nat × Store := xMalloc clean2.2 60000

/-- Fourth call of the caller-store run: `xMalloc(60000)`. -/
def clean4 : Nat × Store := xMalloc clean3.2 60000

/-- The caller stores two 8-byte words into the payload of its fourth pointer `p4`:
`0` at `p4 + 4` and the value `p3 - 12` at `p4 + 12`, `p3` being its third
pointer. -/
def cleanStores : Store :=
  store64 (store64 clean4.2 (clean4.1 + 4) 0) (clean4.1 + 12) (clean3.1 - 12)

/-- Fifth call of the caller-store run: `xFree` of the fourth pointer. -/
def clean5 : Store := returned zeroStore (xFree (FIELD7 + 1) cleanStores clean4.1)

/-- Sixth call of the caller-store run: `xFree` of the third pointer. -/
def clean6 : Store := returned zeroStore (xFree (FIELD7 + 1) clean5 clean3.1)

/-- Seventh call of the caller-store run: `xFree` of the third pointer again. -/
def clean7 : Store := returned zeroStore (xFree (FIELD7 + 1) clean6 clean3.1)

end Bytes

/-! ## Stores that leave headers alone -/

theorem setStart_nodes (h : Heap) (i v : Nat) : (h.setStart i v).nodes = h.nodes := rfl

theorem setEnd_nodes (h : Heap) (i v : Nat) : (h.setEnd i v).nodes = h.nodes := rfl

theorem setNext_head (h : Heap) (a v b : Nat) :
    ((h.setNext a v).nodes b).head = (h.nodes b).head := by
  unfold Heap.setNext
  by_cases hb : b = a <;> simp [hb]

theorem setPrev_head (h : Heap) (a v b : Nat) :
    ((h.setPrev a v).nodes b).head = (h.nodes b).head := by
  unfold Heap.setPrev
  by_cases hb : b = a <;> simp [hb]

theorem setOrder_freedom (h : Heap) (a v b : Nat) :
    ((h.setOrder a v).nodes b).head.freedom = (h.nodes b).head.freedom := by
  unfold Heap.setOrder
  by_cases hb : b = a <;> simp [hb]

theorem setFreedom_self (h : Heap) (a v : Nat) :
    ((h.setFreedom a v).nodes a).head.freedom = v := by
  simp [Heap.setFreedom]

theorem removeFreeBlock_head (h : Heap) (node b : Nat) :
    ((removeFreeBlock h node).nodes b).head = (h.nodes b).head := by
  unfold removeFreeBlock
  dsimp only
  split_ifs <;> simp only [setNext_head, setPrev_head, setStart_nodes, setEnd_nodes]

theorem addFreeBlock_head (h : Heap) (node b : Nat) :
    ((addFreeBlock h node).nodes b).head = (h.nodes b).head := by
  unfold addFreeBlock
  dsimp only
  split_ifs <;> simp only [setNext_head, setPrev_head, setStart_nodes, setEnd_nodes]

theorem setOrder_self (h : Heap) (a v : Nat) :
    ((h.setOrder a v).nodes a).head.order = v % FIELD7 ∧
    ((h.setOrder a v).nodes a).head.maxOrder = (h.nodes a).head.maxOrder := by
  simp [Heap.setOrder]

/-- A buddy address that is not `NULL` lies above the block, and the block is
below its `maxOrder`. -/
theorem getBuddy_gt (h : Heap) (node : Nat) (hne : getBuddy h node ≠ NULL) :
    node < getBuddy h node ∧ (h.nodes node).head.maxOrder ≠ (h.nodes node).head.order := by
  by_cases heq : (h.nodes node).head.maxOrder = (h.nodes node).head.order
  · simp [getBuddy, heq] at hne
  · refine ⟨?_, heq⟩
    unfold getBuddy
    simp only [heq, if_false, Nat.sub_self, Nat.zero_xor, Nat.shiftLeft_eq, Nat.one_mul]
    exact Nat.lt_add_of_pos_right (Nat.pos_pow_of_pos _ (by norm_num))

/-! ## The loops run to their end within the fuel given -/

theorem floorLog2Aux_eq_log2 (fuel n : Nat) (hn : n ≤ fuel) :
    floorLog2Aux fuel n = Nat.log2 n := by
  induction fuel generalizing n with
  | zero =>
    have : n = 0 := by omega
    subst this
    rw [Nat.log2]
    simp [floorLog2Aux]
  | succ f ih =>
    unfold floorLog2Aux
    rw [Nat.log2]
    by_cases h2 : 2 ≤ n
    · have hle : n / 2 ≤ f := by omega
      simp [h2, ih _ hle]
    · simp [h2]

/-- The halving loop computes the floor logarithm of the library. -/
theorem floorLog2_eq_log2 (n : Nat) : floorLog2 n = Nat.log2 n :=
  floorLog2Aux_eq_log2 n n (Nat.le_refl n)

theorem floorLog2_le (n : Nat) (hn : n ≠ 0) : 2 ^ floorLog2 n ≤ n := by
  rw [floorLog2_eq_log2]
  exact Nat.log2_self_le hn

theorem lt_floorLog2 (n : Nat) : n < 2 ^ (floorLog2 n + 1) := by
  rw [floorLog2_eq_log2]
  exact Nat.lt_log2_self

theorem addAndConsolidate_more_fuel (n : Nat) (h : Heap) (node : Nat)
    (hmax : (h.nodes node).head.maxOrder < FIELD7)
    (hord : (h.nodes node).head.order < FIELD7)
    (hd : ((h.nodes node).head.maxOrder + FIELD7 - (h.nodes node).head.order) % FIELD7 < n)
    (k : Nat) :
    addAndConsolidate (n + k) h node = addAndConsolidate n h node := by
  induction n generalizing h node with
  | zero => omega
  | succ n ih =>
    rw [Nat.add_right_comm]
    unfold addAndConsolidate
    dsimp only
    by_cases hc : getBuddy h node ≠ NULL ∧ (h.nodes (getBuddy h node)).head.freedom = FREE
    · obtain ⟨hlt, hne⟩ := getBuddy_gt h node hc.1
      rw [if_pos hc, if_pos hc, if_pos hlt, removeFreeBlock_head]
      have ho := setOrder_self (removeFreeBlock h (getBuddy h node)) node
        (((removeFreeBlock h (getBuddy h node)).nodes node).head.order + 1)
      rw [removeFreeBlock_head] at ho
      apply ih
      · rw [ho.2]; exact hmax
      · rw [ho.1]; exact Nat.mod_lt _ (by unfold FIELD7; norm_num)
      · rw [ho.1, ho.2]
        unfold FIELD7 at *
        omega
    · simp only [hc, if_false]

/-- The recursion of `addAndConsolidate` ends within the `FIELD7 + 1` calls that
`xFree` grants it, whenever the header fields of the block fit their 7 bits:
more fuel gives the same state. -/
theorem addAndConsolidate_fuel (h : Heap) (node : Nat)
    (hmax : (h.nodes node).head.maxOrder < FIELD7)
    (hord : (h.nodes node).head.order < FIELD7) (k : Nat) :
    addAndConsolidate (FIELD7 + 1 + k) h node = addAndConsolidate (FIELD7 + 1) h node :=
  addAndConsolidate_more_fuel (FIELD7 + 1) h node hmax hord
    (Nat.lt_succ_of_lt (Nat.mod_lt _ (by unfold FIELD7; norm_num))) k

/-- The carving loop of `setupHeap` ends within `avaSpace / LOW_ORDER` rounds:
more fuel gives the same state. -/
theorem carveChunks_more_fuel (fuel avaSpace pos : Nat) (h : Heap)
    (hf : avaSpace / LOW_ORDER ≤ fuel) (k : Nat) :
    carveChunks (fuel + k) avaSpace pos h = carveChunks fuel avaSpace pos h := by
  induction fuel generalizing avaSpace pos h with
  | zero =>
    have hlt : ¬ (avaSpace ≥ LOW_ORDER) := by
      unfold LOW_ORDER at *
      omega
    cases k with
    | zero => rfl
    | succ k =>
      rw [Nat.zero_add]
      unfold carveChunks
      simp only [hlt, if_false]
  | succ n ih =>
    rw [Nat.add_right_comm]
    unfold carveChunks
    by_cases hge : avaSpace ≥ LOW_ORDER
    · simp only [hge, if_true]
      apply ih
      have hpos : LOW_ORDER ≤ LOW_ORDER <<< floorLog2 (avaSpace / 32) := by
        rw [Nat.shiftLeft_eq]
        exact Nat.le_mul_of_pos_right _ (Nat.pos_pow_of_pos _ (by norm_num))
      unfold LOW_ORDER at *
      omega
    · simp only [hge, if_false]

theorem countOrders_more_fuel (heapSize fuel orderSize numOrders : Nat)
    (hexit : ∃ j, j < fuel ∧
      fitsOrder heapSize (shiftedSize j orderSize) (numOrders + j) = false)
    (k : Nat) :
    countOrders heapSize (fuel + k) orderSize numOrders =
      countOrders heapSize fuel orderSize numOrders := by
  induction fuel generalizing orderSize numOrders with
  | zero =>
    obtain ⟨j, hj, _⟩ := hexit
    omega
  | succ n ih =>
    rw [Nat.add_right_comm]
    unfold countOrders
    by_cases hfit : fitsOrder heapSize orderSize numOrders = true
    · simp only [hfit, if_true]
      apply ih
      obtain ⟨j, hj, hfalse⟩ := hexit
      cases j with
      | zero =>
        simp [shiftedSize, hfit] at hfalse
      | succ j =>
        refine ⟨j, by omega, ?_⟩
        have hstep : shiftedSize (j + 1) orderSize =
            shiftedSize j ((orderSize <<< 1) % SIZE_RANGE) := by
          simp [shiftedSize, Function.iterate_succ_apply]
        rw [hstep] at hfalse
        rw [show numOrders + 1 + j = numOrders + (j + 1) by omega]
        exact hfalse
    · simp only [hfit, if_false]
      rfl

/-- Whatever the arena size, one of the first, the 26th and the 27th test of the
sizing loop fails. -/
theorem sizing_exits (heapSize : Nat) :
    ∃ j, j < 64 ∧ fitsOrder heapSize (shiftedSize j LOW_ORDER) (1 + j) = false := by
  by_contra hall
  push_neg at hall
  have h0 := hall 0 (by norm_num)
  have h25 := hall 25 (by norm_num)
  have h26 := hall 26 (by norm_num)
  have e25 : shiftedSize 25 LOW_ORDER = 2 ^ 30 := by decide
  have e26 : shiftedSize 26 LOW_ORDER = 2 ^ 31 := by decide
  have e0 : shiftedSize 0 LOW_ORDER = 32 := by decide
  rw [e0] at h0
  rw [e25] at h25
  rw [e26] at h26
  simp only [fitsOrder, toInt32, sizeofNumOrders, sizeofFreeList, SIZE_RANGE, ne_eq,
    decide_eq_false_iff_not, not_not, ge_iff_le] at h0 h25 h26
  norm_num at h0 h25 h26
  split_ifs at h0 h25 h26 <;> omega

/-- The sizing loop of `setupHeap` ends within the 64 rounds granted: more fuel
gives the same `numOrders`. -/
theorem setupNumOrders_fuel (heapSize k : Nat) :
    countOrders heapSize (64 + k) LOW_ORDER 1 = countOrders heapSize 64 LOW_ORDER 1 :=
  countOrders_more_fuel heapSize 64 LOW_ORDER 1 (sizing_exits heapSize) k

/-! ## Scanning empty lists -/

theorem scanOrders_empty (order cnt i : Nat) (h : Heap)
    (hempty : ∀ j, i ≤ j → j < i + cnt → (h.lists j).start = NULL) :
    scanOrders order cnt i h = (NULL, h) := by
  induction cnt generalizing i with
  | zero => rfl
  | succ n ih =>
    unfold scanOrders
    have h0 : (h.lists i).start = NULL := hempty i (Nat.le_refl i) (by omega)
    simp only [h0, ne_eq, not_true_eq_false, if_false]
    exact ih (i + 1) (fun j h1 h2 => hempty j (by omega) (by omega))

/-! ## The order calculator below the wrap -/

/-- For every byte count whose sum with the header size fits `size_t`,
`calcRequiredOrder`, with `log` read in exact arithmetic, is the least order whose
block holds the bytes and the header. -/
theorem calcRequiredOrder_least (b : Nat) (hb : b + sizeofHeader < SIZE_RANGE) :
    b + sizeofHeader ≤ LOW_ORDER <<< calcRequiredOrder b ∧
    ∀ k, b + sizeofHeader ≤ LOW_ORDER <<< k → calcRequiredOrder b ≤ k := by
  unfold calcRequiredOrder
  rw [Nat.mod_eq_of_lt hb]
  generalize b + sizeofHeader = r
  unfold ceilLogQuot
  simp only [Nat.shiftLeft_eq]
  by_cases h32 : LOW_ORDER ≤ r
  · simp only [h32, if_true]
    by_cases hm : (r + (LOW_ORDER - 1)) / LOW_ORDER ≤ 1
    · simp only [hm, if_true]
      unfold LOW_ORDER at *
      simp
      omega
    · simp only [hm, if_false]
      have hpos : ((r + (LOW_ORDER - 1)) / LOW_ORDER - 1) ≠ 0 := by omega
      have hlo := floorLog2_le _ hpos
      have hhi := lt_floorLog2 ((r + (LOW_ORDER - 1)) / LOW_ORDER - 1)
      generalize floorLog2 ((r + (LOW_ORDER - 1)) / LOW_ORDER - 1) = j at hlo hhi
      have hcast : ((j + 1 : Nat) : Int) ≥ 0 := Int.natCast_nonneg _
      simp only [hcast, if_true, Int.toNat_ofNat]
      unfold LOW_ORDER at *
      constructor
      · omega
      · intro k hk
        by_contra hlt
        have hkj : k ≤ j := by omega
        have hpow : 2 ^ k ≤ 2 ^ j := Nat.pow_le_pow_right (by norm_num) hkj
        omega
  · simp only [h32, if_false]
    have hres : (if (-((floorLog2 (LOW_ORDER / r) : Nat) : Int)) ≥ 0 then
        (-((floorLog2 (LOW_ORDER / r) : Nat) : Int)).toNat else 0) = 0 := by
      split_ifs with hge
      · omega
      · rfl
    rw [hres]
    unfold LOW_ORDER at *
    simp
    omega

/-- Below the wrap of `size_t` the required order, with `log` read in exact
arithmetic, is monotone in the byte count. -/
theorem calcRequiredOrder_mono (b1 b2 : Nat) (hlt : b1 < b2)
    (hb : b2 + sizeofHeader < SIZE_RANGE) :
    calcRequiredOrder b1 ≤ calcRequiredOrder b2 := by
  have h2 := (calcRequiredOrder_least b2 hb).1
  have h1 := (calcRequiredOrder_least b1 (by omega)).2
  exact h1 _ (by omega)

/-! ## What `xMalloc` hands out -/

/-- A pointer returned by `xMalloc` follows the header of the node that
`getFreeBlockWithOrder` found, and that header is marked `USED`. -/
theorem xMalloc_marks_used (h : Heap) (b : Nat) (hp : (xMalloc h b).1 ≠ NULL) :
    (xMalloc h b).1 = (getFreeBlockWithOrder h (calcRequiredOrder b)).1 + sizeofHeader ∧
    ((xMalloc h b).2.nodes ((xMalloc h b).1 - sizeofHeader)).head.freedom = USED := by
  unfold xMalloc at hp ⊢
  dsimp only at hp ⊢
  by_cases hnull : (getFreeBlockWithOrder h (calcRequiredOrder b)).1 = NULL
  · simp [hnull] at hp
  · simp only [hnull, if_false, Nat.add_sub_cancel, setFreedom_self, and_self]

/-! ## Claims C1 to C3: issuance, round trip, size sufficiency -/

/-- Setup of the arena of `main` returns, and `demoHeap` is the state it leaves. -/
theorem setupHeap_demo : setupHeap zeroHeap 1000000 524288 = .ok demoHeap := rfl

/-- Setup of the 124-byte arena returns, and `smallHeap` is the state it leaves. -/
theorem setupHeap_small : setupHeap zeroHeap 1000000 124 = .ok smallHeap := rfl

/-- C1, evaluated on the arena of `main`: three consecutive `xMalloc(112 * 1024)`
with no `xFree` in between return `1393448`, `1262376` and `1393448` again. The
first and the third live pointer designate the same order-12 block, so their byte
ranges overlap: the code issues one block twice. -/
theorem C1_double_issuance :
    setupHeap zeroHeap 1000000 524288 = .ok demoHeap ∧
    demo1.1 = 1393448 ∧ demo2.1 = 1262376 ∧ demo3.1 = 1393448 ∧
    (demo3.2.nodes (demo1.1 - sizeofHeader)).head.order = 12 ∧
    (demo3.2.nodes (demo3.1 - sizeofHeader)).head.order = 12 ∧
    overlaps (demo1.1 - sizeofHeader) (demo3.1 - sizeofHeader) (LOW_ORDER <<< 12) :=
  ⟨rfl, by decide⟩

/-- C2, evaluated on an arena with exactly one top-level chunk (124 bytes, one
chunk of order 1 at `1000100`, two lists): two `xMalloc(20)` succeed, both
pointers are freed in the order they were handed out, both `xFree` return, and
the following `xMalloc(50)`, whose required order is 1, returns `NULL`: the two
order-0 halves sit unmerged in list 0 and list 1 is empty. -/
theorem C2_no_coalescing :
    setupHeap zeroHeap 1000000 124 = .ok smallHeap ∧
    smallHeap.orders = 2 ∧
    smallHeap.lists 0 = ⟨NULL, NULL⟩ ∧ smallHeap.lists 1 = ⟨1000100, 1000100⟩ ∧
    smallHeap.nodes 1000100 = ⟨⟨FREE, 1, 1⟩, NULL, NULL⟩ ∧
    small1.1 = 1000104 ∧ small2.1 = 1000136 ∧
    xFree small2.2 small1.1 = .ok small3 ∧
    xFree small3 small2.1 = .ok small4 ∧
    small4.lists 0 = ⟨1000100, 1000132⟩ ∧ small4.lists 1 = ⟨NULL, NULL⟩ ∧
    calcRequiredOrder 20 = 0 ∧ calcRequiredOrder 50 = 1 ∧
    (xMalloc small4 50).1 = NULL :=
  ⟨rfl, by decide, by decide, by decide, by decide, by decide, by decide, rfl, rfl,
    by decide, by decide, by decide, by decide, by decide⟩

/-- C3, evaluated on an arena of 76 bytes (one list, one free chunk of order 0 at
`1000052`): `xMalloc(2 ^ 64 - 1)` returns the non-null pointer `1000056`; the block
before it is marked `USED` and has order `0 = calcRequiredOrder (2 ^ 64 - 1)`, and
its payload of `32 - 4 = 28` bytes is smaller than the `2 ^ 64 - 1` bytes
requested. -/
theorem C3_undersized_block :
    setupHeap zeroHeap 1000000 76 = .ok tinyHeap ∧
    tinyHeap.orders = 1 ∧ tinyHeap.lists 0 = ⟨1000052, 1000052⟩ ∧
    tinyHeap.nodes 1000052 = ⟨⟨FREE, 0, 0⟩, NULL, NULL⟩ ∧
    (xMalloc tinyHeap (2 ^ 64 - 1)).1 = 1000056 ∧
    ((xMalloc tinyHeap (2 ^ 64 - 1)).2.nodes (1000056 - sizeofHeader)).head.freedom = USED ∧
    ((xMalloc tinyHeap (2 ^ 64 - 1)).2.nodes (1000056 - sizeofHeader)).head.order = 0 ∧
    calcRequiredOrder (2 ^ 64 - 1) = 0 ∧
    (LOW_ORDER <<< 0) - sizeofHeader = 28 ∧
    ¬ ((LOW_ORDER <<< 0) - sizeofHeader ≥ 2 ^ 64 - 1) :=
  ⟨rfl, by decide, by decide, by decide, by decide, by decide, by decide, by decide,
    by decide, by decide⟩

/-- A run of six calls inside the arena of `main`, without any wrap: three
`xMalloc(30000)`, `xFree` of the second pointer, `xMalloc(60000)`, `xMalloc(30000)`.
The last call needs order `10` and returns the block at `1458980`, whose header
carries order `11`. -/
theorem xMalloc_order_mismatch :
    mis1.1 = 1491752 ∧ mis2.1 = 1458984 ∧ mis3.1 = 1491752 ∧
    xFree mis3.2 mis2.1 = .ok mis4 ∧ mis5.1 = 1393448 ∧ mis6.1 = 1458984 ∧
    calcRequiredOrder 30000 = 10 ∧ calcRequiredOrder 60000 = 11 ∧
    (mis6.2.nodes (mis6.1 - sizeofHeader)).head = ⟨USED, 12, 11⟩ :=
  ⟨by decide, by decide, by decide, rfl, by decide, by decide, by decide, by decide,
    by decide⟩

/-! ## Claims C4 and C5: the order calculator -/

/-- C4, evaluated at `b = 2 ^ 64 - 1` (`SIZE_MAX`): `reqBytes += sizeof(Header)`
wraps to `3`, so `calcRequiredOrder` returns `0`, although `LOW_ORDER << 0 = 32`
is smaller than `b + sizeof(Header)`; the smallest sufficient order is `60`. -/
theorem C4_wraps_at_size_max :
    calcRequiredOrder (2 ^ 64 - 1) = 0 ∧
    ¬ (LOW_ORDER <<< 0 ≥ (2 ^ 64 - 1) + sizeofHeader) ∧
    LOW_ORDER <<< 60 ≥ (2 ^ 64 - 1) + sizeofHeader ∧
    ¬ (LOW_ORDER <<< 59 ≥ (2 ^ 64 - 1) + sizeofHeader) := by
  decide

/-- C5, evaluated at `b1 = 1000 < b2 = 2 ^ 64 - 1`: `calcRequiredOrder` returns
`5` for the smaller and `0` for the larger byte count, so it is not monotone. -/
theorem C5_not_monotone :
    1000 < 2 ^ 64 - 1 ∧ calcRequiredOrder 1000 = 5 ∧ calcRequiredOrder (2 ^ 64 - 1) = 0 ∧
    ¬ (calcRequiredOrder 1000 ≤ calcRequiredOrder (2 ^ 64 - 1)) := by
  decide

/-! ## Claim C6: exhaustion -/

/-- C6: in every heap state and for every byte count `b`, if the required order
is not below the stored number of orders, or every list of an order from the
required one up to the last configured one has no head, then `xMalloc(b)` returns
`NULL` (and leaves the state as it was). -/
theorem C6_exhaustion (h : Heap) (b : Nat)
    (hex : h.orders ≤ calcRequiredOrder b ∨
      ∀ i, calcRequiredOrder b ≤ i → i < h.orders → (h.lists i).start = NULL) :
    (xMalloc h b).1 = NULL ∧ (xMalloc h b).2 = h := by
  have hscan : getFreeBlockWithOrder h (calcRequiredOrder b) = (NULL, h) := by
    unfold getFreeBlockWithOrder
    apply scanOrders_empty
    intro j h1 h2
    rcases hex with hle | hall
    · omega
    · exact hall j h1 (by omega)
  unfold xMalloc
  simp [hscan]

/-- C6 at a concrete input: after three `xMalloc(112 * 1024)` on the arena of
`main`, lists 12 and 13 are empty and a further `xMalloc(112 * 1024)` returns
`NULL`. -/
theorem C6_exhaustion_witness :
    (demo3.2.orders ≤ calcRequiredOrder demoBytes ∨
      ∀ i, calcRequiredOrder demoBytes ≤ i → i < demo3.2.orders →
        (demo3.2.lists i).start = NULL) ∧
    (xMalloc demo3.2 demoBytes).1 = NULL ∧ (xMalloc demo3.2 demoBytes).2 = demo3.2 :=
  have hyp : demo3.2.orders ≤ calcRequiredOrder demoBytes ∨
      ∀ i, calcRequiredOrder demoBytes ≤ i → i < demo3.2.orders →
        (demo3.2.lists i).start = NULL :=
    Or.inr (fun i h1 h2 => by
      have e1 : calcRequiredOrder demoBytes = 12 := by decide
      have e2 : demo3.2.orders = 14 := by decide
      rw [e1] at h1
      rw [e2] at h2
      interval_cases i
      · decide
      · decide)
  ⟨hyp, C6_exhaustion demo3.2 demoBytes hyp⟩

/-! ## Claim C8: when setup exits -/

theorem countOrders_ge (heapSize fuel orderSize numOrders : Nat) :
    numOrders ≤ countOrders heapSize fuel orderSize numOrders := by
  induction fuel generalizing orderSize numOrders with
  | zero => exact Nat.le_refl _
  | succ n ih =>
    unfold countOrders
    split_ifs
    · exact Nat.le_trans (Nat.le_succ _) (ih _ _)
    · exact Nat.le_refl _

/-- Setup exits exactly when the first test of its sizing loop fails. -/
theorem setupHeap_error_iff (h : Heap) (start heapSize : Nat) :
    setupHeap h start heapSize = .error .InsufficientSpace ↔
      fitsOrder heapSize LOW_ORDER 1 = false := by
  unfold setupHeap setupNumOrders
  dsimp only
  rw [show (64 : Nat) = 63 + 1 from rfl, countOrders]
  by_cases hf : fitsOrder heapSize LOW_ORDER 1 = true
  · have hge := countOrders_ge heapSize 63 ((LOW_ORDER <<< 1) % SIZE_RANGE) (1 + 1)
    have hne : ¬ (countOrders heapSize 63 ((LOW_ORDER <<< 1) % SIZE_RANGE) (1 + 1) - 1 ≤ 0) := by
      omega
    simp [hf, hne]
  · simp [hf]

/-- The first test of the sizing loop, spelled out: the difference
`heapSize - 52`, wrapped into `size_t`, has its bit 31 clear. -/
theorem fitsOrder_first (heapSize : Nat) :
    fitsOrder heapSize LOW_ORDER 1 = true ↔
      (((heapSize : Int) - 52) % 2 ^ 64) % 2 ^ 32 < 2 ^ 31 := by
  unfold fitsOrder toInt32 LOW_ORDER sizeofNumOrders sizeofFreeList SIZE_RANGE
  simp only [decide_eq_true_eq]
  norm_num
  split_ifs with hlt <;> omega

/-- On arenas below `2 ^ 31 + 52` bytes setup exits exactly when the arena is
smaller than `sizeof(NumOrders) + sizeof(FreeList) + LOW_ORDER = 52` bytes. -/
theorem setupHeap_error_iff_small (h : Heap) (start heapSize : Nat)
    (hsize : heapSize < 2 ^ 31 + 52) :
    setupHeap h start heapSize = .error .InsufficientSpace ↔
      heapSize < sizeofNumOrders + sizeofFreeList + LOW_ORDER := by
  rw [setupHeap_error_iff, ← Bool.not_eq_true, fitsOrder_first]
  unfold LOW_ORDER sizeofNumOrders sizeofFreeList
  norm_num at hsize ⊢
  omega

/-- C8, evaluated at `heapSize = 2 ^ 31 + 52 = 2147483700`: the arena is far above
the bound `sizeof(NumOrders) + sizeof(FreeList) + LOW_ORDER = 52`, yet the `(int)`
cast of `heapSize - 52 = 2 ^ 31` is negative, the sizing loop never runs and
`setupHeap` exits with `InsufficientSpace`, exit status 2, from every store and
for every arena address. -/
theorem C8_large_arena_rejected (h : Heap) (start : Nat) :
    ¬ (2147483700 < sizeofNumOrders + sizeofFreeList + LOW_ORDER) ∧
    fitsOrder 2147483700 LOW_ORDER 1 = false ∧
    setupHeap h start 2147483700 = .error .InsufficientSpace ∧
    AllocError.exitCode .InsufficientSpace = 2 :=
  ⟨by decide, by decide, rfl, rfl⟩

/-! ## Claims C9 and C10: the scenario of `main` -/

/-- C9 as stated fails: on the arena of `main` it is not the case that four
consecutive `xMalloc(112 * 1024)` return non-null pointers to pairwise
non-overlapping order-12 blocks and a fifth returns `NULL`; the fourth call
already returns `NULL`. -/
theorem C9_fourth_call_is_null :
    ¬ (demo1.1 ≠ NULL ∧ demo2.1 ≠ NULL ∧ demo3.1 ≠ NULL ∧ demo4.1 ≠ NULL ∧
        ¬ overlaps demo1.1 demo2.1 (LOW_ORDER <<< 12) ∧
        ¬ overlaps demo1.1 demo3.1 (LOW_ORDER <<< 12) ∧
        ¬ overlaps demo1.1 demo4.1 (LOW_ORDER <<< 12) ∧
        ¬ overlaps demo2.1 demo3.1 (LOW_ORDER <<< 12) ∧
        ¬ overlaps demo2.1 demo4.1 (LOW_ORDER <<< 12) ∧
        ¬ overlaps demo3.1 demo4.1 (LOW_ORDER <<< 12) ∧
        (xMalloc demo4.2 demoBytes).1 = NULL) := by
  decide

/-- C9 as amended: on the arena of `main` (`heapSize = 524288`, 14 orders), three
consecutive `xMalloc(112 * 1024)` return non-null pointers, the first two to
non-overlapping order-12 blocks, and the fourth `xMalloc(112 * 1024)` returns
`NULL`. -/
theorem C9_three_then_null :
    setupHeap zeroHeap 1000000 524288 = .ok demoHeap ∧
    demoHeap.orders = 14 ∧ calcRequiredOrder demoBytes = 12 ∧
    demo1.1 ≠ NULL ∧ demo2.1 ≠ NULL ∧ demo3.1 ≠ NULL ∧
    ¬ overlaps (demo1.1 - sizeofHeader) (demo2.1 - sizeofHeader) (LOW_ORDER <<< 12) ∧
    demo4.1 = NULL :=
  ⟨rfl, by decide⟩

/-- C10, evaluated on the arena of `main`: after two `xMalloc(112 * 1024)` the
first pointer is live (handed out, never freed), yet its block is marked `FREE`
(the split that served the second call wrote its buddy header there), and
`xFree` of it exits with `DoubleFree`, so no `xMalloc` can follow. -/
theorem C10_free_of_live_pointer_exits :
    setupHeap zeroHeap 1000000 524288 = .ok demoHeap ∧
    demo1.1 = 1393448 ∧ demo2.1 = 1262376 ∧
    (demo1.2.nodes (demo1.1 - sizeofHeader)).head.freedom = USED ∧
    (demo2.2.nodes (demo1.1 - sizeofHeader)).head.freedom = FREE ∧
    xFree demo2.2 demo1.1 = .error .DoubleFree :=
  ⟨rfl, by decide, by decide, by decide, by decide, rfl⟩

/-- A run of seven calls inside the arena of `main` in which `xFree` returns:
two `xMalloc(112 * 1024)`, three `xMalloc(60000)`, `xFree` of the first pointer,
which is live, and then `xMalloc(112 * 1024)` again, which returns `NULL`. -/
theorem xMalloc_null_after_free :
    demo1.1 = 1393448 ∧ demo2.1 = 1262376 ∧
    reuse3.1 = 1458984 ∧ reuse4.1 = 1393448 ∧ reuse5.1 = 1458984 ∧
    xFree reuse5.2 demo1.1 = .ok reuse6 ∧
    (xMalloc reuse6 demoBytes).1 = NULL :=
  ⟨by decide, by decide, by decide, by decide, by decide, rfl, by decide⟩

/-! ## Claims C11 and C12: buddy addresses and chunk placement -/

/-- A block below its `maxOrder` has a buddy address, which is not `NULL`. -/
theorem getBuddy_ne_null (h : Heap) (y : Nat)
    (hy : (h.nodes y).head.maxOrder ≠ (h.nodes y).head.order) : getBuddy h y ≠ NULL := by
  unfold getBuddy
  rw [if_neg hy]
  simp only [Nat.sub_self, Nat.zero_xor, Nat.shiftLeft_eq, Nat.one_mul]
  have hpos : 0 < 2 ^ ((h.nodes y).head.order + floorLog2 LOW_ORDER) :=
    Nat.pos_pow_of_pos _ (by norm_num)
  unfold NULL
  omega

/-- In every state, when the block at the buddy address carries the order and the
`maxOrder` of the block, the buddy of the buddy lies above both: `getBuddy` never
leads back. -/
theorem getBuddy_never_back (h : Heap) (x : Nat) (hx : getBuddy h x ≠ NULL)
    (hord : (h.nodes (getBuddy h x)).head.order = (h.nodes x).head.order)
    (hmax : (h.nodes (getBuddy h x)).head.maxOrder = (h.nodes x).head.maxOrder) :
    x < getBuddy h (getBuddy h x) := by
  obtain ⟨hlt, hne⟩ := getBuddy_gt h x hx
  have hy : getBuddy h (getBuddy h x) ≠ NULL :=
    getBuddy_ne_null h _ (by rw [hord, hmax]; exact hne)
  exact Nat.lt_trans hlt (getBuddy_gt h _ hy).1

/-- C11, evaluated right after `splitBlock` has split the order-13 chunk of the
arena of `main`: the lower half `x = 1262372` and the block at
`getBuddy(x) = 1393444` are both `FREE` with order 12 and `maxOrder` 13, yet
`getBuddy` of that block is `1524516`, not `x`. -/
theorem C11_buddy_not_symmetric :
    (demoSplit.nodes 1262372).head = ⟨FREE, 13, 12⟩ ∧
    getBuddy demoSplit 1262372 = 1393444 ∧
    (demoSplit.nodes 1393444).head = ⟨FREE, 13, 12⟩ ∧
    getBuddy demoSplit 1393444 = 1524516 ∧
    getBuddy demoSplit (getBuddy demoSplit 1262372) ≠ 1262372 := by
  decide

/-- C12, evaluated on the arena of `main` (`start = 1000000`, `heapSize = 524288`,
overhead `4 + 14 * 16 = 228`): the first chunk, of order 13, is registered at
`1262372`, not at `start + overhead = 1000228`; its `262144` bytes end at
`1524516`, beyond `start + heapSize = 1524288`; and the chunk of order 12,
registered at `1393444`, lies inside the range of the first. -/
theorem C12_chunks_leave_arena :
    setupHeap zeroHeap 1000000 524288 = .ok demoHeap ∧
    demoHeap.orders = 14 ∧ sizeofNumOrders + 14 * sizeofFreeList = 228 ∧
    demoHeap.lists 13 = ⟨1262372, 1262372⟩ ∧
    (demoHeap.nodes 1262372).head = ⟨FREE, 13, 13⟩ ∧
    demoHeap.lists 12 = ⟨1393444, 1393444⟩ ∧
    (demoHeap.nodes 1393444).head = ⟨FREE, 12, 12⟩ ∧
    1262372 ≠ 1000000 + 228 ∧
    ¬ (1262372 + (LOW_ORDER <<< 13) ≤ 1000000 + 524288) ∧
    rangesOverlap 1262372 (LOW_ORDER <<< 13) 1393444 (LOW_ORDER <<< 12) :=
  ⟨rfl, by decide⟩

/-! ## Claims C13 to C15 on states reached by calls of the interface -/

/-- C13, evaluated at the sixth call of the run `xMalloc(30000)` three times,
`xFree` of the second pointer, `xMalloc(60000)`, `xMalloc(30000)`. Before the
sixth call the required order is `10` and list 10 is not empty, its head is
`1458980`. The call returns the payload of that head, but the head carries order
`11`: it is unlinked from list 11, which goes from `⟨1458980, 1458980⟩` to empty,
and list 10 keeps the block just handed out as its head. -/
theorem C13_other_list_changed :
    mis1.1 = 1491752 ∧ mis2.1 = 1458984 ∧ mis3.1 = 1491752 ∧
    xFree mis3.2 mis2.1 = .ok mis4 ∧ mis5.1 = 1393448 ∧
    calcRequiredOrder 30000 = 10 ∧
    (mis5.2.lists 10).start = 1458980 ∧
    mis6.1 = 1458980 + sizeofHeader ∧
    mis5.2.lists 11 = ⟨1458980, 1458980⟩ ∧ mis6.2.lists 11 = ⟨NULL, NULL⟩ ∧
    mis6.2.lists 11 ≠ mis5.2.lists 11 ∧
    mis6.2.lists 10 = ⟨1458980, 1458980⟩ :=
  ⟨by decide, by decide, by decide, rfl, by decide, by decide, by decide, by decide,
    by decide, by decide, by decide, by decide⟩

/-- C14, evaluated after the five calls `xMalloc(30000)` three times, `xFree` of the
second pointer, `xMalloc(60000)`: the node `1458980` is the head of list 10 and of
list 11 at once and its order field is `11`; after one more `xMalloc(30000)` it is
marked `USED`, handed out, and still the head of list 10. -/
theorem C14_registry_broken :
    mis1.1 = 1491752 ∧ mis2.1 = 1458984 ∧ mis3.1 = 1491752 ∧
    xFree mis3.2 mis2.1 = .ok mis4 ∧ mis5.1 = 1393448 ∧
    (mis5.2.lists 10).start = 1458980 ∧ (mis5.2.lists 11).start = 1458980 ∧
    (mis5.2.nodes 1458980).head = ⟨FREE, 12, 11⟩ ∧
    mis6.1 = 1458984 ∧
    (mis6.2.lists 10).start = 1458980 ∧
    (mis6.2.nodes 1458980).head = ⟨USED, 12, 11⟩ :=
  ⟨by decide, by decide, by decide, rfl, by decide, by decide, by decide, by decide,
    by decide, by decide, by decide⟩

/-- C15, evaluated after the seven calls `xMalloc(60000)`, `xMalloc(112 * 1024)`,
`xMalloc(60000)`, `xMalloc(112 * 1024)`, `xMalloc(60000)`, `xFree` of the third
pointer, `xFree` of the fifth pointer: both `xFree` return, and list 11 then holds
`1262372` and `1327908 = 1262372 + (LOW_ORDER << 11)`, the two halves of one
order-12 block, both `FREE` with order 11 and `maxOrder` 13. -/
theorem C15_buddies_left_unmerged :
    co1.1 = 1458984 ∧ co2.1 = 1393448 ∧ co3.1 = 1262376 ∧ co4.1 = 1393448 ∧
    co5.1 = 1327912 ∧
    xFree co5.2 co3.1 = .ok co6 ∧ xFree co6 co5.1 = .ok co7 ∧
    co7.lists 11 = ⟨1262372, 1327908⟩ ∧
    Chain co7 (co7.lists 11).start [1262372, 1327908] ∧
    (co7.nodes 1262372).head = ⟨FREE, 13, 11⟩ ∧
    (co7.nodes 1327908).head = ⟨FREE, 13, 11⟩ ∧
    1327908 = 1262372 + (LOW_ORDER <<< 11) :=
  ⟨by decide, by decide, by decide, by decide, by decide, rfl, rfl, by decide,
    by decide, by decide, by decide, by decide⟩

/-! ## Claim C17: chunk orders and the size of the registry -/

/-- C17, evaluated on an arena of 96 bytes: `setupHeap` returns with `N = 1` order
in the metadata, and carves one chunk, at `1000084`, of order `1`, which is not
below `N`; `addFreeBlock` puts it into the list of index 1, past the one list of
the registry, where `xMalloc` never looks. -/
theorem C17_chunk_order_past_registry :
    setupHeap zeroHeap 1000000 96 = .ok oddHeap ∧
    oddHeap.orders = 1 ∧
    (oddHeap.nodes 1000084).head = ⟨FREE, 1, 1⟩ ∧
    (oddHeap.lists 1).start = 1000084 ∧
    (oddHeap.lists 0).start = NULL ∧
    ¬ ((oddHeap.nodes 1000084).head.order < oddHeap.orders) ∧
    calcRequiredOrder 50 = 1 ∧ (xMalloc oddHeap 50).1 = NULL :=
  ⟨rfl, by decide, by decide, by decide, by decide, by decide, by decide, by decide⟩

/-! ## Claims C18 and C19: the two list operations -/

/-- C18, evaluated on the well-formed list `1000, 2000, 3000` of order 0 and its
middle node: after `removeFreeBlock(2000)` the predecessor's `next` is the
successor `3000` and the removed node's links are `NULL`, but the successor's
`prev` is `NULL`, not the predecessor `1000`, so the list is not well formed. -/
theorem C18_middle_removal_breaks_prev :
    WellFormed threeList 0 [1000, 2000, 3000] ∧
    ((removeFreeBlock threeList 2000).nodes 1000).next = 3000 ∧
    ((removeFreeBlock threeList 2000).nodes 2000).next = NULL ∧
    ((removeFreeBlock threeList 2000).nodes 2000).prev = NULL ∧
    ((removeFreeBlock threeList 2000).nodes 3000).prev = NULL ∧
    ((removeFreeBlock threeList 2000).nodes 3000).prev ≠ 1000 ∧
    ¬ WellFormed (removeFreeBlock threeList 2000) 0 [1000, 3000] := by
  decide

/-- C19, evaluated on the empty list of order 0 and a node of order 0 whose `next`
and `prev` fields hold `777` and `555`: after `addFreeBlock` the node is `start`
and `end` of the list, but its `next` is still `777` and its `prev` still `555`,
so the list is not the well-formed list holding just that node. -/
theorem C19_empty_list_keeps_stale_links :
    WellFormed staleNode 0 [] ∧
    (staleNode.nodes 1000).head = ⟨FREE, 0, 0⟩ ∧
    (addFreeBlock staleNode 1000).lists 0 = ⟨1000, 1000⟩ ∧
    ((addFreeBlock staleNode 1000).nodes 1000).next = 777 ∧
    ((addFreeBlock staleNode 1000).nodes 1000).prev = 555 ∧
    ((addFreeBlock staleNode 1000).nodes 1000).next ≠ NULL ∧
    ¬ WellFormed (addFreeBlock staleNode 1000) 0 [1000] := by
  decide

/-! ## Headers after a store and after `splitBlock` -/

theorem setFreedom_head (h : Heap) (a v b : Nat) :
    ((h.setFreedom a v).nodes b).head =
      if b = a then { (h.nodes a).head with freedom := v } else (h.nodes b).head := by
  unfold Heap.setFreedom
  by_cases hb : b = a <;> simp [hb]

theorem setOrder_head (h : Heap) (a v b : Nat) :
    ((h.setOrder a v).nodes b).head =
      if b = a then { (h.nodes a).head with order := v % FIELD7 } else (h.nodes b).head := by
  unfold Heap.setOrder
  by_cases hb : b = a <;> simp [hb]

theorem setMaxOrder_head (h : Heap) (a v b : Nat) :
    ((h.setMaxOrder a v).nodes b).head =
      if b = a then { (h.nodes a).head with maxOrder := v % FIELD7 } else (h.nodes b).head := by
  unfold Heap.setMaxOrder
  by_cases hb : b = a <;> simp [hb]

theorem floorLog2_LOW_ORDER : floorLog2 LOW_ORDER = 5 := by decide

/-- The buddy address `splitBlock` computes for a block of order at least 1 that is
not above its `maxOrder`: the block's address plus the size of the new order. -/
theorem splitBlock_buddy (h : Heap) (node : Nat)
    (hk : 0 < (h.nodes node).head.order)
    (hle : (h.nodes node).head.order ≤ (h.nodes node).head.maxOrder)
    (h7 : (h.nodes node).head.maxOrder < FIELD7) :
    getBuddy ((removeFreeBlock h node).setOrder node
      (((removeFreeBlock h node).nodes node).head.order - 1)) node =
      node + (LOW_ORDER <<< ((h.nodes node).head.order - 1)) := by
  have hmod : ((h.nodes node).head.order - 1) % FIELD7 = (h.nodes node).head.order - 1 :=
    Nat.mod_eq_of_lt (by omega)
  unfold getBuddy
  simp only [setOrder_head, removeFreeBlock_head, if_true, hmod]
  rw [if_neg (by omega)]
  rw [floorLog2_LOW_ORDER]
  simp only [Nat.sub_self, Nat.zero_xor, Nat.shiftLeft_eq, Nat.one_mul, LOW_ORDER]
  rw [Nat.pow_add]
  ring

/-- The headers after `splitBlock` on a block of order at least 1 that is not above
its `maxOrder`. -/
theorem splitBlock_head (h : Heap) (node : Nat)
    (hk : 0 < (h.nodes node).head.order)
    (hle : (h.nodes node).head.order ≤ (h.nodes node).head.maxOrder)
    (h7 : (h.nodes node).head.maxOrder < FIELD7) (a : Nat) :
    ((splitBlock h node).nodes a).head =
      if a = node + (LOW_ORDER <<< ((h.nodes node).head.order - 1)) then
        ⟨FREE, (h.nodes node).head.maxOrder, (h.nodes node).head.order - 1⟩
      else if a = node then
        { (h.nodes node).head with order := (h.nodes node).head.order - 1 }
      else (h.nodes a).head := by
  have hne : (h.nodes node).head.order ≠ 0 := by omega
  have hmod : ((h.nodes node).head.order - 1) % FIELD7 = (h.nodes node).head.order - 1 :=
    Nat.mod_eq_of_lt (by omega)
  have hmodm : (h.nodes node).head.maxOrder % FIELD7 = (h.nodes node).head.maxOrder :=
    Nat.mod_eq_of_lt h7
  have hpos : node < node + (LOW_ORDER <<< ((h.nodes node).head.order - 1)) := by
    rw [Nat.shiftLeft_eq]
    exact Nat.lt_add_of_pos_right (Nat.mul_pos (by unfold LOW_ORDER; norm_num)
      (Nat.pos_pow_of_pos _ (by norm_num)))
  unfold splitBlock
  rw [if_neg hne]
  dsimp only
  rw [splitBlock_buddy h node hk hle h7]
  simp only [addFreeBlock_head, setMaxOrder_head, setOrder_head, setFreedom_head,
    removeFreeBlock_head]
  have hnb : ¬ (node = node + (LOW_ORDER <<< ((h.nodes node).head.order - 1))) := by omega
  by_cases ha : a = node + (LOW_ORDER <<< ((h.nodes node).head.order - 1))
  · subst ha
    simp only [if_true, if_neg hnb, hmod, hmodm]
  · by_cases han : a = node
    · subst han
      simp only [if_neg ha, if_true, hmod]
    · simp only [if_neg ha, if_neg han]

/-! ## Claim C20: the lists after `splitBlock` -/

theorem chain_iff_seg (h : Heap) (s : Nat) (l : List Nat) : Chain h s l ↔ Seg h s l NULL := by
  induction l generalizing s with
  | nil => exact Iff.rfl
  | cons a l ih =>
    unfold Chain Seg
    rw [ih]

theorem seg_congr (h h1 : Heap) (s t : Nat) (l : List Nat)
    (hsame : ∀ a ∈ l, (h1.nodes a).next = (h.nodes a).next) (hseg : Seg h s l t) :
    Seg h1 s l t := by
  induction l generalizing s with
  | nil => exact hseg
  | cons a l ih =>
    obtain ⟨hs, ha, hrest⟩ := hseg
    refine ⟨hs, ha, ?_⟩
    rw [hsame a (List.mem_cons_self a l)]
    exact ih _ (fun b hb => hsame b (List.mem_cons_of_mem a hb)) hrest

theorem seg_append (h : Heap) (s t : Nat) (l m : List Nat) :
    Seg h s (l ++ m) t ↔ ∃ u, Seg h s l u ∧ Seg h u m t := by
  induction l generalizing s with
  | nil =>
    constructor
    · intro hs
      exact ⟨s, rfl, hs⟩
    · rintro ⟨u, hu, hm⟩
      have : s = u := hu
      rw [this]
      exact hm
  | cons a l ih =>
    constructor
    · rintro ⟨hs, ha, hrest⟩
      obtain ⟨u, hu, hm⟩ := (ih _).1 hrest
      exact ⟨u, ⟨hs, ha, hu⟩, hm⟩
    · rintro ⟨u, ⟨hs, ha, hu⟩, hm⟩
      exact ⟨hs, ha, (ih _).2 ⟨u, hu, hm⟩⟩

theorem seg_mem_ne_null (h : Heap) (s t : Nat) (l : List Nat) (hseg : Seg h s l t) :
    ∀ a ∈ l, a ≠ NULL := by
  induction l generalizing s with
  | nil => intro a ha; cases ha
  | cons b l ih =>
    obtain ⟨_, hb, hrest⟩ := hseg
    intro a ha
    rcases List.mem_cons.1 ha with rfl | hmem
    · exact hb
    · exact ih _ hrest a hmem

/-- Redirecting the `next` of the last node of a segment redirects the segment. -/
theorem seg_redirect (h h1 : Heap) (s t x : Nat) (l : List Nat) (hne : l ≠ [])
    (hseg : Seg h s l t) (hnd : l.Nodup)
    (hsame : ∀ a ∈ l, a ≠ l.getLast hne → (h1.nodes a).next = (h.nodes a).next)
    (hlast : (h1.nodes (l.getLast hne)).next = x) :
    Seg h1 s l x := by
  induction l generalizing s with
  | nil => exact absurd rfl hne
  | cons a l ih =>
    obtain ⟨hs, ha, hrest⟩ := hseg
    cases l with
    | nil =>
      refine ⟨hs, ha, ?_⟩
      exact hlast
    | cons b l =>
      have hnd2 : (b :: l).Nodup := (List.nodup_cons.1 hnd).2
      have hanot : a ∉ b :: l := (List.nodup_cons.1 hnd).1
      have hlastmem : (b :: l).getLast (List.cons_ne_nil b l) ∈ b :: l :=
        List.getLast_mem _
      have hane : a ≠ (a :: b :: l).getLast hne := by
        rw [List.getLast_cons (List.cons_ne_nil b l)]
        intro heq
        exact hanot (heq ▸ hlastmem)
      refine ⟨hs, ha, ?_⟩
      rw [hsame a (List.mem_cons_self _ _) hane]
      apply ih _ (List.cons_ne_nil b l) hrest hnd2
      · intro c hc hcne
        apply hsame c (List.mem_cons_of_mem a hc)
        rw [List.getLast_cons (List.cons_ne_nil b l)]
        exact hcne
      · rw [List.getLast_cons (List.cons_ne_nil b l)] at hlast
        exact hlast

theorem linked_seg (h : Heap) (p s : Nat) (l : List Nat) (hl : Linked h p s l) :
    Seg h s l NULL := by
  induction l generalizing p s with
  | nil => exact hl
  | cons a l ih =>
    obtain ⟨hs, ha, _, hrest⟩ := hl
    exact ⟨hs, ha, ih _ _ hrest⟩

/-- A member of a doubly-linked list: its `prev` is the last node before it, and
the list splits into the segment up to it and the list after it. -/
theorem linked_split (h : Heap) (p s x : Nat) (pre post : List Nat)
    (hl : Linked h p s (pre ++ x :: post)) :
    (h.nodes x).prev = pre.getLastD p ∧ x ≠ NULL ∧ Seg h s pre x ∧
      Seg h (h.nodes x).next post NULL := by
  induction pre generalizing p s with
  | nil =>
    obtain ⟨hs, hx, hp, hrest⟩ := hl
    exact ⟨hp, hx, hs, linked_seg h _ _ _ hrest⟩
  | cons a pre ih =>
    obtain ⟨hs, ha, _, hrest⟩ := hl
    obtain ⟨h1, h2, h3, h4⟩ := ih a _ hrest
    refine ⟨?_, h2, ⟨hs, ha, h3⟩, h4⟩
    rw [h1]
    cases pre <;> rfl

theorem setFreedom_next (h : Heap) (a v b : Nat) :
    ((h.setFreedom a v).nodes b).next = (h.nodes b).next := by
  unfold Heap.setFreedom
  by_cases hb : b = a <;> simp [hb]

theorem setOrder_next (h : Heap) (a v b : Nat) :
    ((h.setOrder a v).nodes b).next = (h.nodes b).next := by
  unfold Heap.setOrder
  by_cases hb : b = a <;> simp [hb]

theorem setMaxOrder_next (h : Heap) (a v b : Nat) :
    ((h.setMaxOrder a v).nodes b).next = (h.nodes b).next := by
  unfold Heap.setMaxOrder
  by_cases hb : b = a <;> simp [hb]

theorem setFreedom_lists (h : Heap) (a v : Nat) : (h.setFreedom a v).lists = h.lists := rfl

theorem setOrder_lists (h : Heap) (a v : Nat) : (h.setOrder a v).lists = h.lists := rfl

theorem setMaxOrder_lists (h : Heap) (a v : Nat) : (h.setMaxOrder a v).lists = h.lists := rfl

theorem setNext_lists (h : Heap) (a v : Nat) : (h.setNext a v).lists = h.lists := rfl

theorem setPrev_lists (h : Heap) (a v : Nat) : (h.setPrev a v).lists = h.lists := rfl

theorem setNext_next (h : Heap) (a v b : Nat) :
    ((h.setNext a v).nodes b).next = if b = a then v else (h.nodes b).next := by
  unfold Heap.setNext
  by_cases hb : b = a <;> simp [hb]

theorem setPrev_next (h : Heap) (a v b : Nat) :
    ((h.setPrev a v).nodes b).next = (h.nodes b).next := by
  unfold Heap.setPrev
  by_cases hb : b = a <;> simp [hb]

theorem setNext_prev (h : Heap) (a v b : Nat) :
    ((h.setNext a v).nodes b).prev = (h.nodes b).prev := by
  unfold Heap.setNext
  by_cases hb : b = a <;> simp [hb]

theorem setPrev_prev (h : Heap) (a v b : Nat) :
    ((h.setPrev a v).nodes b).prev = if b = a then v else (h.nodes b).prev := by
  unfold Heap.setPrev
  by_cases hb : b = a <;> simp [hb]

theorem setStart_lists (h : Heap) (i v j : Nat) :
    (h.setStart i v).lists j = if j = i then ⟨v, (h.lists i).end_⟩ else h.lists j := by
  unfold Heap.setStart
  by_cases hj : j = i <;> simp [hj]

theorem setEnd_lists (h : Heap) (i v j : Nat) :
    (h.setEnd i v).lists j = if j = i then ⟨(h.lists i).start, v⟩ else h.lists j := by
  unfold Heap.setEnd
  by_cases hj : j = i <;> simp [hj]

theorem removeFreeBlock_eq (h : Heap) (node : Nat) :
    removeFreeBlock h node = unlinkNode (unlinkRegistry h node) node := rfl

theorem unlinkRegistry_nodes (h : Heap) (node : Nat) :
    (unlinkRegistry h node).nodes = h.nodes := by
  unfold unlinkRegistry
  dsimp only
  split_ifs <;> rfl

theorem unlinkNode_lists (x : Heap) (node : Nat) : (unlinkNode x node).lists = x.lists := by
  unfold unlinkNode
  dsimp only
  split_ifs <;> rfl

theorem unlinkNode_next (x : Heap) (node a : Nat) :
    ((unlinkNode x node).nodes a).next =
      if a = node then NULL
      else if (x.nodes node).prev ≠ NULL ∧ a = (x.nodes node).prev then (x.nodes node).next
      else (x.nodes a).next := by
  unfold unlinkNode
  dsimp only
  by_cases han : a = node
  · subst han
    generalize hpv : (x.nodes a).prev = p
    generalize hnv : (x.nodes a).next = n
    by_cases hp : p ≠ NULL
    · simp only [if_pos hp, setNext_next, setPrev_next, setNext_prev, setPrev_prev, hnv, hpv,
        if_true]
      split_ifs <;> simp only [setNext_next, setPrev_next, if_true, hnv, hpv]
      all_goals (split_ifs at *; unfold NULL at *; omega)
    · simp only [if_neg hp, hnv, hpv, if_true]
      split_ifs <;> simp only [setNext_next, setPrev_next, if_true, hnv, hpv]
      all_goals (unfold NULL at *; omega)
  · generalize hpv : (x.nodes node).prev = p
    generalize hnv : (x.nodes node).next = n
    generalize hav : (x.nodes a).next = na
    by_cases hp : p ≠ NULL
    · simp only [if_pos hp, setNext_next, setPrev_next, setNext_prev, setPrev_prev, hnv, hpv,
        hav, if_true, if_neg han, true_and]
      split_ifs <;> simp only [setNext_next, setPrev_next, if_neg han, hav, hnv, hpv]
      all_goals (split_ifs at * <;> first | rfl | (unfold NULL at *; omega))
    · simp only [if_neg hp, hnv, hpv, hav, if_neg han, false_and, if_false]
      split_ifs <;> simp only [setNext_next, setPrev_next, if_neg han, hav, hnv, hpv]
      all_goals (unfold NULL at *; omega)

/-- The `next` fields after `removeFreeBlock`, in every state. -/
theorem removeFreeBlock_next (h : Heap) (node a : Nat) :
    ((removeFreeBlock h node).nodes a).next =
      if a = node then NULL
      else if (h.nodes node).prev ≠ NULL ∧ a = (h.nodes node).prev then (h.nodes node).next
      else (h.nodes a).next := by
  rw [removeFreeBlock_eq, unlinkNode_next, unlinkRegistry_nodes]

/-- The `start` fields after `removeFreeBlock`, in every state. -/
theorem removeFreeBlock_start (h : Heap) (node j : Nat) :
    ((removeFreeBlock h node).lists j).start =
      if j = (h.nodes node).head.order ∧ (h.lists j).start = node then (h.nodes node).next
      else (h.lists j).start := by
  rw [removeFreeBlock_eq, unlinkNode_lists]
  unfold unlinkRegistry
  dsimp only
  by_cases hj : j = (h.nodes node).head.order
  · subst hj
    by_cases hs : (h.lists (h.nodes node).head.order).start = node
    · simp only [if_pos hs, true_and, if_true]
      split_ifs <;> first | rfl | simp only [setEnd_lists, setStart_lists, if_true]
    · simp only [if_neg hs, hs, and_false, if_false]
      split_ifs <;> first | rfl | simp only [setEnd_lists, setStart_lists, if_true]
  · simp only [hj, false_and, if_false]
    split_ifs <;> first | rfl | simp only [setEnd_lists, setStart_lists, if_neg hj]

/-- Lists of another order are left alone by `removeFreeBlock`. -/
theorem removeFreeBlock_lists_ne (h : Heap) (node j : Nat)
    (hj : j ≠ (h.nodes node).head.order) :
    (removeFreeBlock h node).lists j = h.lists j := by
  rw [removeFreeBlock_eq, unlinkNode_lists]
  unfold unlinkRegistry
  dsimp only
  split_ifs <;> first | rfl | simp only [setEnd_lists, setStart_lists, if_neg hj]

/-- The `next` fields after `addFreeBlock`, in every state. -/
theorem addFreeBlock_next (h : Heap) (node a : Nat) :
    ((addFreeBlock h node).nodes a).next =
      if (h.lists (h.nodes node).head.order).end_ = NULL then (h.nodes a).next
      else if a = node then NULL
      else if a = (h.lists (h.nodes node).head.order).end_ then node
      else (h.nodes a).next := by
  unfold addFreeBlock
  dsimp only
  have hend : ((if (h.lists (h.nodes node).head.order).start = NULL then
      h.setStart (h.nodes node).head.order node else h).lists (h.nodes node).head.order).end_ =
      (h.lists (h.nodes node).head.order).end_ := by
    split_ifs
    · rw [setStart_lists, if_pos rfl]
    · rfl
  have hnodes : (if (h.lists (h.nodes node).head.order).start = NULL then
      h.setStart (h.nodes node).head.order node else h).nodes = h.nodes := by
    split_ifs <;> rfl
  rw [hend]
  by_cases he : (h.lists (h.nodes node).head.order).end_ = NULL
  · rw [if_pos he, if_pos he, setEnd_nodes, hnodes]
  · rw [if_neg he, if_neg he, setEnd_nodes, setNext_next, setPrev_next, setNext_next, hnodes]

/-- The `start` fields after `addFreeBlock`, in every state. -/
theorem addFreeBlock_start (h : Heap) (node j : Nat) :
    ((addFreeBlock h node).lists j).start =
      if j = (h.nodes node).head.order ∧ (h.lists j).start = NULL then node
      else (h.lists j).start := by
  unfold addFreeBlock
  dsimp only
  by_cases hj : j = (h.nodes node).head.order
  · subst hj
    by_cases hs : (h.lists (h.nodes node).head.order).start = NULL
    · simp only [if_pos hs, true_and, if_true]
      split_ifs <;> first | rfl | simp only [setEnd_lists, setStart_lists, setNext_lists, setPrev_lists, if_true]
    · simp only [if_neg hs, hs, and_false, if_false]
      split_ifs <;> first | rfl | simp only [setEnd_lists, setStart_lists, setNext_lists, setPrev_lists, if_true]
  · simp only [hj, false_and, if_false]
    split_ifs <;> first | rfl | simp only [setEnd_lists, setStart_lists, setNext_lists, setPrev_lists, if_neg hj]

/-- The `end` fields after `addFreeBlock`, in every state. -/
theorem addFreeBlock_end (h : Heap) (node j : Nat) :
    ((addFreeBlock h node).lists j).end_ =
      if j = (h.nodes node).head.order then node else (h.lists j).end_ := by
  unfold addFreeBlock
  dsimp only
  by_cases hj : j = (h.nodes node).head.order
  · subst hj
    simp only [if_true]
    split_ifs <;> first | rfl | simp only [setEnd_lists, setStart_lists, setNext_lists, setPrev_lists, if_true]
  · simp only [if_neg hj]
    split_ifs <;> first | rfl | simp only [setEnd_lists, setStart_lists, setNext_lists, setPrev_lists, if_neg hj]

theorem getLastD_mem (l : List Nat) (hne : l ≠ []) (d : Nat) :
    l.getLastD d = l.getLast hne ∧ l.getLast hne ∈ l := by
  cases l with
  | nil => exact absurd rfl hne
  | cons a l =>
    refine ⟨?_, List.getLast_mem _⟩
    rw [List.getLastD_cons]
    exact (List.getLast_eq_getLastD a l _).symm

/-- Appending the buddy and then the node to the list of order `j`: the list gains
both at its tail, and the list of another order `k` keeps its chain. -/
theorem addTwo_seg (x : Heap) (B node j k : Nat) (lj L : List Nat)
    (hBo : (x.nodes B).head.order = j) (hNo : (x.nodes node).head.order = j)
    (hjk : k ≠ j) (hBn : B ≠ node) (hB0 : B ≠ NULL) (hN0 : node ≠ NULL)
    (hj : Seg x (x.lists j).start lj NULL) (hjend : (x.lists j).end_ = lj.getLastD NULL)
    (hjnd : lj.Nodup) (hk : Seg x (x.lists k).start L NULL)
    (hBj : B ∉ lj) (hNj : node ∉ lj) (hBL : B ∉ L) (hNL : node ∉ L)
    (hdis : ∀ a ∈ L, a ∉ lj) :
    Seg (addFreeBlock (addFreeBlock x B) node)
        ((addFreeBlock (addFreeBlock x B) node).lists j).start (lj ++ [B, node]) NULL ∧
      Seg (addFreeBlock (addFreeBlock x B) node)
        ((addFreeBlock (addFreeBlock x B) node).lists k).start L NULL := by
  have hNo6 : ((addFreeBlock x B).nodes node).head.order = j := by
    rw [addFreeBlock_head]; exact hNo
  have hend6 : ((addFreeBlock x B).lists j).end_ = B := by
    rw [addFreeBlock_end, hBo, if_pos rfl]
  have hnx6 : ∀ a, ((addFreeBlock x B).nodes a).next =
      if (x.lists j).end_ = NULL then (x.nodes a).next
      else if a = B then NULL
      else if a = (x.lists j).end_ then B
      else (x.nodes a).next := by
    intro a
    rw [addFreeBlock_next, hBo]
  have hnxF : ∀ a, ((addFreeBlock (addFreeBlock x B) node).nodes a).next =
      if a = node then NULL
      else if a = B then node
      else ((addFreeBlock x B).nodes a).next := by
    intro a
    rw [addFreeBlock_next, hNo6, hend6, if_neg hB0]
  have hstart6 : ((addFreeBlock x B).lists j).start =
      if (x.lists j).start = NULL then B else (x.lists j).start := by
    rw [addFreeBlock_start, hBo]
    simp only [true_and]
  have hstart6ne : ((addFreeBlock x B).lists j).start ≠ NULL := by
    rw [hstart6]
    split_ifs with h0
    · exact hB0
    · exact h0
  have hstartF : ((addFreeBlock (addFreeBlock x B) node).lists j).start =
      ((addFreeBlock x B).lists j).start := by
    rw [addFreeBlock_start, hNo6]
    simp only [true_and, if_neg hstart6ne]
  have hstartFk : ((addFreeBlock (addFreeBlock x B) node).lists k).start =
      (x.lists k).start := by
    rw [addFreeBlock_start, hNo6, addFreeBlock_start, hBo]
    simp only [hjk, false_and, if_false]
  have htail : Seg (addFreeBlock (addFreeBlock x B) node) B [B, node] NULL := by
    refine ⟨rfl, hB0, ?_, hN0, ?_⟩
    · rw [hnxF, if_neg hBn, if_pos rfl]
    · rw [hnxF, if_pos rfl]
      rfl
  rw [hstartF, hstartFk, hstart6]
  cases lj with
  | nil =>
    have hs0 : (x.lists j).start = NULL := hj
    have he0 : (x.lists j).end_ = NULL := hjend
    constructor
    · rw [if_pos hs0]
      exact htail
    · apply seg_congr x _ _ _ _ _ hk
      intro a ha
      have h1 : a ≠ node := fun e => hNL (e ▸ ha)
      have h2 : a ≠ B := fun e => hBL (e ▸ ha)
      rw [hnxF, if_neg h1, if_neg h2, hnx6, if_pos he0]
  | cons y l =>
    have hne : (y :: l) ≠ [] := List.cons_ne_nil y l
    obtain ⟨hE, hEmem⟩ := getLastD_mem (y :: l) hne NULL
    rw [hE] at hjend
    have hnull := seg_mem_ne_null x _ _ _ hj
    have hE0 : (x.lists j).end_ ≠ NULL := by
      rw [hjend]
      exact hnull _ hEmem
    have hs0 : (x.lists j).start ≠ NULL := by
      have : (x.lists j).start = y := hj.1
      rw [this]
      exact hj.2.1
    constructor
    · rw [if_neg hs0]
      apply (seg_append _ _ _ _ _).2
      refine ⟨B, ?_, htail⟩
      apply seg_redirect x _ _ NULL B (y :: l) hne hj hjnd
      · intro a ha hane
        have h1 : a ≠ node := fun e => hNj (e ▸ ha)
        have h2 : a ≠ B := fun e => hBj (e ▸ ha)
        rw [hnxF, if_neg h1, if_neg h2, hnx6, if_neg hE0, if_neg h2, hjend, if_neg hane]
      · have h1 : (y :: l).getLast hne ≠ node := fun e => hNj (e ▸ hEmem)
        have h2 : (y :: l).getLast hne ≠ B := fun e => hBj (e ▸ hEmem)
        rw [hnxF, if_neg h1, if_neg h2, hnx6, if_neg hE0, if_neg h2, hjend, if_pos rfl]
    · apply seg_congr x _ _ _ _ _ hk
      intro a ha
      have h1 : a ≠ node := fun e => hNL (e ▸ ha)
      have h2 : a ≠ B := fun e => hBL (e ▸ ha)
      have h3 : a ≠ (y :: l).getLast hne := fun e => hdis a ha (e ▸ hEmem)
      rw [hnxF, if_neg h1, if_neg h2, hnx6, if_neg hE0, if_neg h2, hjend, if_neg h3]

/-- Unlinking a member of a well-formed list of its own order leaves the chain of
the other members, in their order, and touches the `next` field of no node
outside the list. -/
theorem removeFreeBlock_seg (h : Heap) (node k : Nat) (lk : List Nat)
    (hord : (h.nodes node).head.order = k) (hwf : WellFormed h k lk) (hmem : node ∈ lk) :
    Seg (removeFreeBlock h node) ((removeFreeBlock h node).lists k).start
        (lk.erase node) NULL ∧
      ∀ a, a ∉ lk → ((removeFreeBlock h node).nodes a).next = (h.nodes a).next := by
  obtain ⟨hlinked, _, hnd⟩ := hwf
  obtain ⟨pre, post, rfl⟩ := List.append_of_mem hmem
  obtain ⟨hprev, hn0, hsegpre, hsegpost⟩ := linked_split h NULL _ node pre post hlinked
  obtain ⟨hndpre, hndrest, hdisj⟩ := List.nodup_append.1 hnd
  have hnpost : node ∉ post := (List.nodup_cons.1 hndrest).1
  have hnpre : node ∉ pre := fun hm => hdisj hm (List.mem_cons_self _ _)
  have herase : (pre ++ node :: post).erase node = pre ++ post := by
    rw [List.erase_append_right _ hnpre, List.erase_cons_head]
  rw [herase, removeFreeBlock_start, hord]
  simp only [true_and]
  constructor
  · cases pre with
    | nil =>
      have hs : (h.lists k).start = node := hsegpre
      have hp0 : (h.nodes node).prev = NULL := hprev
      rw [if_pos hs, List.nil_append]
      apply seg_congr h _ _ _ _ _ hsegpost
      intro a ha
      have h1 : a ≠ node := fun e => hnpost (e ▸ ha)
      rw [removeFreeBlock_next, if_neg h1, hp0]
      simp only [ne_eq, not_true_eq_false, false_and, if_false]
    | cons y pre =>
      have hne : (y :: pre) ≠ [] := List.cons_ne_nil y pre
      obtain ⟨hE, hEmem⟩ := getLastD_mem (y :: pre) hne NULL
      rw [hE] at hprev
      have hnull := seg_mem_ne_null h _ _ _ hsegpre
      have hP0 : (h.nodes node).prev ≠ NULL := by
        rw [hprev]
        exact hnull _ hEmem
      have hPn : (y :: pre).getLast hne ≠ node := fun e => hnpre (e ▸ hEmem)
      have hs : (h.lists k).start ≠ node := by
        have hy : (h.lists k).start = y := hsegpre.1
        rw [hy]
        exact fun e => hnpre (e ▸ List.mem_cons_self _ _)
      rw [if_neg hs]
      apply (seg_append _ _ _ _ _).2
      refine ⟨(h.nodes node).next, ?_, ?_⟩
      · apply seg_redirect h _ _ node _ (y :: pre) hne hsegpre hndpre
        · intro a ha hane
          have h1 : a ≠ node := fun e => hnpre (e ▸ ha)
          rw [removeFreeBlock_next, if_neg h1, hprev]
          simp only [hane, and_false, if_false]
        · rw [removeFreeBlock_next, if_neg hPn, hprev]
          rw [hprev] at hP0
          simp only [ne_eq, hP0, not_false_eq_true, and_self, if_true]
      · apply seg_congr h _ _ _ _ _ hsegpost
        intro a ha
        have h1 : a ≠ node := fun e => hnpost (e ▸ ha)
        have h2 : a ≠ (y :: pre).getLast hne := fun e =>
          hdisj hEmem (List.mem_cons_of_mem _ (e ▸ ha))
        rw [removeFreeBlock_next, if_neg h1, hprev]
        simp only [h2, and_false, if_false]
  · intro a ha
    have h1 : a ≠ node := fun e => ha (e ▸ hmem)
    rw [removeFreeBlock_next, if_neg h1]
    have h2 : ¬ ((h.nodes node).prev ≠ NULL ∧ a = (h.nodes node).prev) := by
      rintro ⟨hp0, hap⟩
      cases pre with
      | nil => exact hp0 hprev
      | cons y pre =>
        obtain ⟨hE, hEmem⟩ := getLastD_mem (y :: pre) (List.cons_ne_nil y pre) NULL
        rw [hE] at hprev
        apply ha
        rw [hap, hprev]
        exact List.mem_append_left _ hEmem
    rw [if_neg h2]

/-- The shape of `splitBlock` on a block of order at least 1: the two insertions,
of the buddy and then of the block, into a state that has the links and the
registry of the state after `removeFreeBlock` and in which both carry the new
order. -/
theorem splitBlock_links (h : Heap) (node : Nat)
    (hk : 0 < (h.nodes node).head.order)
    (hle : (h.nodes node).head.order ≤ (h.nodes node).head.maxOrder)
    (h7 : (h.nodes node).head.maxOrder < FIELD7) :
    ∃ x : Heap,
      splitBlock h node =
        addFreeBlock (addFreeBlock x (node + (LOW_ORDER <<< ((h.nodes node).head.order - 1))))
          node ∧
      (∀ a, (x.nodes a).next = ((removeFreeBlock h node).nodes a).next) ∧
      x.lists = (removeFreeBlock h node).lists ∧
      (x.nodes (node + (LOW_ORDER <<< ((h.nodes node).head.order - 1)))).head.order =
        (h.nodes node).head.order - 1 ∧
      (x.nodes node).head.order = (h.nodes node).head.order - 1 := by
  have hne : (h.nodes node).head.order ≠ 0 := by omega
  have hmod : ((h.nodes node).head.order - 1) % FIELD7 = (h.nodes node).head.order - 1 :=
    Nat.mod_eq_of_lt (by omega)
  have hpos : node < node + (LOW_ORDER <<< ((h.nodes node).head.order - 1)) := by
    rw [Nat.shiftLeft_eq]
    exact Nat.lt_add_of_pos_right (Nat.mul_pos (by unfold LOW_ORDER; norm_num)
      (Nat.pos_pow_of_pos _ (by norm_num)))
  have hnb : ¬ (node = node + (LOW_ORDER <<< ((h.nodes node).head.order - 1))) := by omega
  unfold splitBlock
  rw [if_neg hne]
  dsimp only
  rw [splitBlock_buddy h node hk hle h7]
  refine ⟨_, rfl, ?_, ?_, ?_, ?_⟩
  · intro a
    rw [setMaxOrder_next, setOrder_next, setFreedom_next, setOrder_next]
  · rw [setMaxOrder_lists, setOrder_lists, setFreedom_lists, setOrder_lists]
  · simp only [setMaxOrder_head, setOrder_head, setFreedom_head, removeFreeBlock_head,
      if_true, if_neg hnb, hmod]
  · simp only [setMaxOrder_head, setOrder_head, setFreedom_head, removeFreeBlock_head,
      if_true, if_neg hnb, hmod]

/-- The postcondition of `splitBlock` where the registry is sound: `node` is a member
of the well-formed list `lk` of its order `k > 0`, the list `lj` of order `k - 1` is
well formed and shares no node with `lk`, the header obeys `k ≤ maxOrder < 128`,
and the address `node + (LOW_ORDER << (k - 1))` is a node of neither list.
Afterwards the node has order `k - 1` and its other header fields unchanged, the
block at `node + (LOW_ORDER << (k - 1))` is `FREE` with order `k - 1` and the same
`maxOrder`, the list of order `k - 1` is `lj` followed by that block and the node,
the list of order `k` is `lk` without the node, and the two halves cover the
`LOW_ORDER << k` bytes of the block.  A block of order `0` is left as it is, in
every state. -/
theorem splitBlock_postcondition (h : Heap) (node k : Nat) (lk lj : List Nat)
    (hord : (h.nodes node).head.order = k) (hk : 0 < k)
    (hle : k ≤ (h.nodes node).head.maxOrder) (h7 : (h.nodes node).head.maxOrder < FIELD7)
    (hlk : WellFormed h k lk) (hmem : node ∈ lk) (hlj : WellFormed h (k - 1) lj)
    (hdis : ∀ a ∈ lk, a ∉ lj)
    (hBk : node + (LOW_ORDER <<< (k - 1)) ∉ lk) (hBj : node + (LOW_ORDER <<< (k - 1)) ∉ lj) :
    ((splitBlock h node).nodes node).head = { (h.nodes node).head with order := k - 1 } ∧
    ((splitBlock h node).nodes (node + (LOW_ORDER <<< (k - 1)))).head =
      ⟨FREE, (h.nodes node).head.maxOrder, k - 1⟩ ∧
    Chain (splitBlock h node) ((splitBlock h node).lists (k - 1)).start
      (lj ++ [node + (LOW_ORDER <<< (k - 1)), node]) ∧
    Chain (splitBlock h node) ((splitBlock h node).lists k).start (lk.erase node) ∧
    node ∉ lk.erase node ∧
    node + (LOW_ORDER <<< (k - 1)) + (LOW_ORDER <<< (k - 1)) = node + (LOW_ORDER <<< k) ∧
    (∀ (g : Heap) (n : Nat), (g.nodes n).head.order = 0 → splitBlock g n = g) := by
  subst hord
  have hpos : node < node + (LOW_ORDER <<< ((h.nodes node).head.order - 1)) := by
    rw [Nat.shiftLeft_eq]
    exact Nat.lt_add_of_pos_right (Nat.mul_pos (by unfold LOW_ORDER; norm_num)
      (Nat.pos_pow_of_pos _ (by norm_num)))
  have hnb : ¬ (node = node + (LOW_ORDER <<< ((h.nodes node).head.order - 1))) := by omega
  have hB0 : node + (LOW_ORDER <<< ((h.nodes node).head.order - 1)) ≠ NULL := by
    unfold NULL; omega
  have hN0 : node ≠ NULL := seg_mem_ne_null h _ _ _ (linked_seg h _ _ _ hlk.1) node hmem
  have hNL : node ∉ lk.erase node := fun hm => (List.Nodup.mem_erase_iff hlk.2.2).1 hm |>.1 rfl
  have hlists : Seg (splitBlock h node)
        ((splitBlock h node).lists ((h.nodes node).head.order - 1)).start
        (lj ++ [node + (LOW_ORDER <<< ((h.nodes node).head.order - 1)), node]) NULL ∧
      Seg (splitBlock h node) ((splitBlock h node).lists (h.nodes node).head.order).start
        (lk.erase node) NULL := by
    obtain ⟨x, hx, hnext, hlists, hBo, hNo⟩ := splitBlock_links h node hk hle h7
    obtain ⟨hsegk, hout⟩ := removeFreeBlock_seg h node _ lk rfl hlk hmem
    have hjk : (h.nodes node).head.order - 1 ≠ (h.nodes node).head.order := by omega
    have hjlist : x.lists ((h.nodes node).head.order - 1) =
        h.lists ((h.nodes node).head.order - 1) := by
      rw [hlists, removeFreeBlock_lists_ne h node _ hjk]
    rw [hx]
    refine addTwo_seg x _ node _ (h.nodes node).head.order lj (lk.erase node) hBo hNo
      (Ne.symm hjk) (Ne.symm hnb) hB0 hN0 ?_ ?_ hlj.2.2 ?_ hBj (hdis node hmem)
      (fun hm => hBk (List.mem_of_mem_erase hm)) hNL
      (fun a ha => hdis a (List.mem_of_mem_erase ha))
    · rw [hjlist]
      apply seg_congr h x _ _ _ _ (linked_seg h _ _ _ hlj.1)
      intro a ha
      rw [hnext, hout a (fun hm => hdis a hm ha)]
    · rw [hjlist]
      exact hlj.2.1
    · rw [hlists]
      exact seg_congr _ x _ _ _ (fun a _ => hnext a) hsegk
  refine ⟨?_, ?_, (chain_iff_seg _ _ _).2 hlists.1, (chain_iff_seg _ _ _).2 hlists.2, hNL,
    ?_, ?_⟩
  · rw [splitBlock_head h node hk hle h7, if_neg hnb, if_pos rfl]
  · rw [splitBlock_head h node hk hle h7, if_pos rfl]
  · obtain ⟨j, hj⟩ : ∃ j, (h.nodes node).head.order = j + 1 :=
      ⟨_, (Nat.succ_pred_eq_of_pos hk).symm⟩
    rw [hj]
    simp only [Nat.shiftLeft_eq, Nat.add_sub_cancel, Nat.pow_succ]
    ring
  · intro g n hz
    unfold splitBlock
    rw [if_pos hz]

/-- The postcondition of `splitBlock` at the middle node `2000` of the order-1 list
`1000, 2000, 3000`, the order-0 list holding `5000`. -/
theorem splitBlock_postcondition_example :
    WellFormed splitList 1 [1000, 2000, 3000] ∧ WellFormed splitList 0 [5000] ∧
    ((splitBlock splitList 2000).nodes 2000).head = ⟨FREE, 2, 0⟩ ∧
    ((splitBlock splitList 2000).nodes 2032).head = ⟨FREE, 2, 0⟩ ∧
    Chain (splitBlock splitList 2000) ((splitBlock splitList 2000).lists 0).start
      [5000, 2032, 2000] ∧
    Chain (splitBlock splitList 2000) ((splitBlock splitList 2000).lists 1).start
      [1000, 3000] :=
  have hc := splitBlock_postcondition splitList 2000 1 [1000, 2000, 3000] [5000]
    (by decide) (by decide) (by decide) (by decide) (by decide) (by decide) (by decide)
    (by decide) (by decide) (by decide)
  ⟨by decide, by decide, hc.1, hc.2.1, hc.2.2.1, hc.2.2.2.1⟩

/-- C20, evaluated at the `splitBlock` call of the seventh call of the run
`xMalloc(30000)` three times, `xFree` of the second pointer, `xMalloc(60000)`,
`xMalloc(15000)`, `xMalloc(15000)`.  The seventh call needs order 9, finds list 9
empty and the head `1458980` in list 10, and calls `splitBlock` on it once.  That
node is `FREE` and is the one member of the well-formed list of order 11, the order
of its header, and of the well-formed list of order 10.  After `splitBlock` its
order is `10`; the block at `1458980 + (LOW_ORDER << 10)` is `FREE` with order 10
but is no member of list 10, which holds the node alone; the block at
`1458980 + (LOW_ORDER << 9)` is not marked `FREE`; and list 11 is empty. -/
theorem C20_split_of_doubly_listed_node :
    mis1.1 = 1491752 ∧ mis2.1 = 1458984 ∧ mis3.1 = 1491752 ∧
    xFree mis3.2 mis2.1 = .ok mis4 ∧ mis5.1 = 1393448 ∧ splitRun6.1 = 1508136 ∧
    calcRequiredOrder 15000 = 9 ∧ (splitRun6.2.lists 9).start = NULL ∧
    (splitRun6.2.lists 10).start = 1458980 ∧
    (xMalloc splitRun6.2 15000).2 = (removeFreeBlock misSplit 1458980).setFreedom 1458980 USED ∧
    WellFormed splitRun6.2 10 [1458980] ∧ WellFormed splitRun6.2 11 [1458980] ∧
    (splitRun6.2.nodes 1458980).head = ⟨FREE, 12, 11⟩ ∧
    (misSplit.nodes 1458980).head = ⟨FREE, 12, 10⟩ ∧
    (misSplit.nodes (1458980 + (LOW_ORDER <<< 9))).head = ⟨USED, 0, 0⟩ ∧
    (misSplit.nodes (1458980 + (LOW_ORDER <<< 10))).head = ⟨FREE, 12, 10⟩ ∧
    Chain misSplit (misSplit.lists 10).start [1458980] ∧
    1458980 + (LOW_ORDER <<< 10) ∉ [1458980] ∧
    misSplit.lists 11 = ⟨NULL, NULL⟩ :=
  ⟨by decide, by decide, by decide, rfl, by decide, by decide, by decide, by decide,
    by decide, rfl, by decide, by decide, by decide, by decide, by decide, by decide,
    by decide, by decide, by decide⟩

/-! ## The scan order of `xMalloc` -/

/-- The scan of `getFreeBlockWithOrder` stops at the first list with a head: when
the lists `i .. i + j - 1` have no head and list `i + j` has one, with `j` below
the number of indices left, the scan returns that head and the state after
`i + j - order` calls of `splitBlock` on it. -/
theorem scanOrders_first (order cnt i j : Nat) (h : Heap) (hj : j < cnt)
    (hempty : ∀ m, m < j → (h.lists (i + m)).start = NULL)
    (hne : (h.lists (i + j)).start ≠ NULL) :
    scanOrders order cnt i h =
      ((h.lists (i + j)).start, splitTimes (i + j - order) h (h.lists (i + j)).start) := by
  induction j generalizing cnt i with
  | zero =>
    obtain ⟨n, rfl⟩ : ∃ n, cnt = n + 1 := ⟨cnt - 1, by omega⟩
    unfold scanOrders
    simp only [Nat.add_zero] at hne ⊢
    simp only [hne, ne_eq, not_false_eq_true, if_true]
  | succ j ih =>
    obtain ⟨n, rfl⟩ : ∃ n, cnt = n + 1 := ⟨cnt - 1, by omega⟩
    unfold scanOrders
    have h0 : (h.lists i).start = NULL := by
      have := hempty 0 (Nat.succ_pos j)
      simpa using this
    simp only [h0, ne_eq, not_true_eq_false, if_false]
    have e : i + (j + 1) = i + 1 + j := by omega
    rw [e] at hne ⊢
    apply ih n (i + 1) (by omega) _ hne
    intro m hm
    have := hempty (m + 1) (by omega)
    have e2 : i + (m + 1) = i + 1 + m := by omega
    rw [e2] at this
    exact this

/-- The scan order of `xMalloc`, in every state: when `i` is the least order from
the required order `k` on, below the stored number of orders, whose list has a
head, `xMalloc` returns the payload address of that head, after `i - k` calls of
`splitBlock` on it, one `removeFreeBlock` and the `USED` mark. -/
theorem xMalloc_takes_first_head (h : Heap) (b i : Nat)
    (hki : calcRequiredOrder b ≤ i) (hi : i < h.orders)
    (hempty : ∀ m, calcRequiredOrder b ≤ m → m < i → (h.lists m).start = NULL)
    (hne : (h.lists i).start ≠ NULL) :
    xMalloc h b =
      ((h.lists i).start + sizeofHeader,
        (removeFreeBlock (splitTimes (i - calcRequiredOrder b) h (h.lists i).start)
          (h.lists i).start).setFreedom (h.lists i).start USED) := by
  obtain ⟨j, rfl⟩ : ∃ j, i = calcRequiredOrder b + j := ⟨i - calcRequiredOrder b, by omega⟩
  have hscan := scanOrders_first (calcRequiredOrder b) (h.orders - calcRequiredOrder b)
    (calcRequiredOrder b) j h (by omega)
    (fun m hm => hempty _ (by omega) (by omega)) hne
  unfold xMalloc getFreeBlockWithOrder
  simp only [hscan, hne, if_false]

/-- When the list of the required order `k` has a head whose header carries the
order `k`, `xMalloc` returns the payload address of that head, without a split, and
leaves the registry entry of every other order as it was. -/
theorem xMalloc_same_order (h : Heap) (b : Nat)
    (hk : calcRequiredOrder b < h.orders)
    (hne : (h.lists (calcRequiredOrder b)).start ≠ NULL)
    (hord : (h.nodes (h.lists (calcRequiredOrder b)).start).head.order = calcRequiredOrder b) :
    (xMalloc h b).1 = (h.lists (calcRequiredOrder b)).start + sizeofHeader ∧
    ∀ j, j ≠ calcRequiredOrder b → (xMalloc h b).2.lists j = h.lists j := by
  rw [xMalloc_takes_first_head h b (calcRequiredOrder b) (Nat.le_refl _) hk
    (fun m h1 h2 => absurd h1 (by omega)) hne]
  refine ⟨rfl, fun j hj => ?_⟩
  simp only [Nat.sub_self, splitTimes, setFreedom_lists]
  exact removeFreeBlock_lists_ne h _ j (by rw [hord]; exact hj)

/-- The first `xMalloc(112 * 1024)` of `main`: the required order is 12, list 12 has
the head `1393444`, of order 12, and the call returns its payload address. -/
theorem xMalloc_same_order_demo :
    (demoHeap.lists (calcRequiredOrder demoBytes)).start = 1393444 ∧
    (xMalloc demoHeap demoBytes).1 = 1393444 + sizeofHeader :=
  ⟨by decide, (xMalloc_same_order demoHeap demoBytes (by decide) (by decide) (by decide)).1⟩

/-! ## Claims C7 and C16 at byte level: a store through a stale link -/

/-- More fuel does not change a result of `addAndConsolidate`. -/
theorem bytes_addAndConsolidate_mono (n k : Nat) (m r : Bytes.Store) (node : Nat)
    (hr : Bytes.addAndConsolidate n m node = some r) :
    Bytes.addAndConsolidate (n + k) m node = some r := by
  induction n generalizing m node with
  | zero => cases hr
  | succ n ih =>
    rw [Nat.add_right_comm]
    unfold Bytes.addAndConsolidate at hr ⊢
    dsimp only at hr ⊢
    split_ifs at hr ⊢
    · exact ih _ _ hr
    · exact ih _ _ hr
    · exact hr

/-- C7, evaluated at byte level on the arena of `main`, set up on a memory that is
zero but for the word `1262364` at `1327924`: after `xMalloc(60000)`,
`xMalloc(112 * 1024)` and `p = xMalloc(60000) = 1262376`, the pointer `p` is live
and its block `1262372` is marked `USED`.  The first `xFree(p)` returns and leaves
that block marked `USED`, with order 1 and `maxOrder` 0; the second `xFree(p)`
returns as well instead of exiting, marks the block `FREE` and appends it to list 1
once more, so the state after it is not the state after the first. -/
theorem C7_double_free_missed :
    Bytes.setupHeap 64 Bytes.staleArena 1000000 524288 = some (.ok Bytes.stale0) ∧
    Bytes.stale1.1 = 1458984 ∧ Bytes.stale2.1 = 1393448 ∧ Bytes.stale3.1 = 1262376 ∧
    Bytes.freedom Bytes.stale3.2 1262372 = USED ∧
    Bytes.xFree (FIELD7 + 1) Bytes.stale3.2 1262376 = some (.ok Bytes.stale4) ∧
    Bytes.freedom Bytes.stale4 1262372 = USED ∧
    Bytes.xFree (FIELD7 + 1) Bytes.stale4 1262376 = some (.ok Bytes.stale5) ∧
    Bytes.freedom Bytes.stale5 1262372 = FREE ∧
    Bytes.load64 Bytes.stale4 (1262372 + Bytes.offPrev) = NULL ∧
    Bytes.load64 Bytes.stale5 (1262372 + Bytes.offPrev) = 1262372 :=
  ⟨rfl, by decide, by decide, by decide, by decide, rfl, by decide, rfl, by decide,
    by decide, by decide⟩

/-- C16, evaluated at byte level on the same run: before `xFree(p)` the block
`1262372` has order 11 and `maxOrder` 13 and its buddy `1327908` is `FREE`, its
`prev` field holding the word `1262364` the arena came with.  `xFree(p)` merges
the two; the block then heads list 1 with order 1 and `maxOrder` 0: the order is
above the `maxOrder`, and the merge has changed the `maxOrder`. -/
theorem C16_merge_breaks_header :
    Bytes.setupHeap 64 Bytes.staleArena 1000000 524288 = some (.ok Bytes.stale0) ∧
    Bytes.stale1.1 = 1458984 ∧ Bytes.stale2.1 = 1393448 ∧ Bytes.stale3.1 = 1262376 ∧
    Bytes.order Bytes.stale3.2 1262372 = 11 ∧ Bytes.maxOrder Bytes.stale3.2 1262372 = 13 ∧
    Bytes.getBuddy Bytes.stale3.2 1262372 = 1327908 ∧
    Bytes.freedom Bytes.stale3.2 1327908 = FREE ∧
    Bytes.load64 Bytes.stale3.2 (1327908 + Bytes.offPrev) = 1262364 ∧
    Bytes.xFree (FIELD7 + 1) Bytes.stale3.2 1262376 = some (.ok Bytes.stale4) ∧
    Bytes.load64 Bytes.stale4 (Bytes.getListWithOrder Bytes.stale4 1) = 1262372 ∧
    Bytes.order Bytes.stale4 1262372 = 1 ∧ Bytes.maxOrder Bytes.stale4 1262372 = 0 ∧
    ¬ (Bytes.order Bytes.stale4 1262372 ≤ Bytes.maxOrder Bytes.stale4 1262372) ∧
    Bytes.maxOrder Bytes.stale4 1262372 ≠ Bytes.maxOrder Bytes.stale3.2 1262372 :=
  ⟨rfl, by decide, by decide, by decide, by decide, by decide, by decide, by decide,
    by decide, rfl, by decide, by decide, by decide, by decide, by decide⟩

/-- The same failure on a zeroed arena, the stale link being a word the caller
stored in its own payload: after four `xMalloc` calls the caller stores `0` and
`p3 - 12` into the payload of `p4` and frees `p4`; then `xFree(p3)` returns with
the block of `p3` marked `USED`, order 1 and `maxOrder` 0, and a second `xFree(p3)`
returns as well. -/
theorem double_free_missed_after_caller_store :
    Bytes.setupHeap 64 Bytes.zeroStore 1000000 524288 = some (.ok Bytes.clean0) ∧
    Bytes.clean1.1 = 1458984 ∧ Bytes.clean2.1 = 1393448 ∧
    Bytes.clean3.1 = 1262376 ∧ Bytes.clean4.1 = 1327912 ∧
    Bytes.clean4.1 + 12 + 8 ≤ Bytes.clean4.1 + 60000 ∧
    Bytes.xFree (FIELD7 + 1) Bytes.cleanStores 1327912 = some (.ok Bytes.clean5) ∧
    Bytes.xFree (FIELD7 + 1) Bytes.clean5 1262376 = some (.ok Bytes.clean6) ∧
    Bytes.freedom Bytes.clean6 1262372 = USED ∧
    Bytes.order Bytes.clean6 1262372 = 1 ∧ Bytes.maxOrder Bytes.clean6 1262372 = 0 ∧
    Bytes.xFree (FIELD7 + 1) Bytes.clean6 1262376 = some (.ok Bytes.clean7) ∧
    Bytes.freedom Bytes.clean7 1262372 = FREE :=
  ⟨rfl, by decide, by decide, by decide, by decide, by decide, rfl, rfl, by decide,
    by decide, by decide, rfl, by decide⟩

end SampleAllocator
